import Mathlib

/-!
# Bagged tree trainer driver (`tools/trainers/baggedTreeTrainer/src/main.cpp`)

A shallow embedding of `main`.  The driver is straight-line code over external
collaborators (command-line parser, model loader, dataset loader, trainers,
evaluator, model container).  Their implementations are not part of the driver, so
they are taken as the fields of an environment `Env`; every one of them may throw.
`main` runs in a small exception/state monad whose state holds what the driver
wrote to `std::cout` and `std::cerr` and the sequence of external calls it made,
each with the arguments it was given.

Conventions of the embedding:
* an external call that mutates an object (`Update` on the trainer, `Evaluate` on the
  evaluator, `AddToModel` on the model) returns the new value of that object;
* `std::endl` is the character `\n`, and only what `main` itself sends to `std::cout`
  and `std::cerr` is recorded as text (what `Save` writes is the call `save`);
* an exception that no handler of `main` catches leaves `main` without a return value.

The trainers themselves are not part of the driver.  The second half of the file
models them after the specification and follows their properties through `main`.
-/

namespace BaggedTreeTrainer

/-! ## Data model -/

/-- The types of the collaborators' objects, none of which the driver inspects. -/
structure Sig where
  LossArguments : Type
  ModelLoadArguments : Type
  DataLoadArguments : Type
  DataDimension : Type
  SortingTreeTrainerArguments : Type
  BaggingIncrementalTrainerArguments : Type
  OutStream : Type
  Model : Type
  CoordinateList : Type
  Map : Type
  RowDataset : Type
  Iterator : Type
  BaseTrainer : Type
  Trainer : Type
  Predictor : Type
  Evaluator : Type

/-- One entry of `CommandLineParserErrorException::GetParseErrors()`. -/
structure ParseError where
  getMessage : String
deriving DecidableEq, Repr

/-- The exceptions `main` distinguishes, by dynamic type. -/
inductive Exn where
  /-- `utilities::CommandLineParserPrintHelpException` with its help text -/
  | printHelp (helpText : String)
  /-- `utilities::CommandLineParserErrorException` with its parse errors -/
  | parseError (errors : List ParseError)
  /-- `std::runtime_error` (or a class derived from it) with its `what()` -/
  | runtimeError (what : String)
  /-- an exception of any other type -/
  | other (what : String)
deriving DecidableEq, Repr

/-- `common::ParsedTrainerArguments`, the fields the driver reads. -/
structure ParsedTrainerArguments (S : Sig) where
  verbose : Bool
  lossArguments : S.LossArguments

/-- `common::ParsedMapLoadArguments`, the fields the driver reads. -/
structure ParsedMapLoadArguments (S : Sig) where
  modelLoadArguments : S.ModelLoadArguments
  coordinateListString : String

/-- `common::ParsedMapSaveArguments`, the field the driver reads. -/
structure ParsedMapSaveArguments where
  outputModelFile : String

/-- The six option sets filled in by `commandLineParser.Parse()`. -/
structure Arguments (S : Sig) where
  trainerArguments : ParsedTrainerArguments S
  mapLoadArguments : ParsedMapLoadArguments S
  dataLoadArguments : S.DataLoadArguments
  mapSaveArguments : ParsedMapSaveArguments
  sortingTreeTrainerArguments : S.SortingTreeTrainerArguments
  baggingIncrementalTrainerArguments : S.BaggingIncrementalTrainerArguments

/-- An external call made by the driver, with its arguments. -/
inductive Call (S : Sig) where
  | parse (argv : List String)
  | getCurrentValuesString (argv : List String)
  | getOutputStreamImpostor (outputModelFile : String)
  | loadModel (a : S.ModelLoadArguments)
  | buildCoordinateList (model : S.Model) (dim : S.DataDimension) (coordinateListString : String)
  | makeMap (model : S.Model) (outputCoordinateList : S.CoordinateList)
  | getRowDataset (a : S.DataLoadArguments) (map : S.Map)
  | makeSortingTreeTrainer (loss : S.LossArguments) (a : S.SortingTreeTrainerArguments)
  | makeBaggingIncrementalTrainer (baseTrainer : S.BaseTrainer)
      (a : S.BaggingIncrementalTrainerArguments)
  | getIterator (rowDataset : S.RowDataset)
  | update (trainer : S.Trainer) (exampleIterator : S.Iterator)
  | getPredictor (trainer : S.Trainer)
  | makeBinaryClassificationEvaluator (loss : S.LossArguments)
  | evaluate (evaluator : S.Evaluator) (exampleIterator : S.Iterator) (predictor : S.Predictor)
  | print (evaluator : S.Evaluator)
  | addToModel (predictor : S.Predictor) (model : S.Model) (outputCoordinateList : S.CoordinateList)
  | save (model : S.Model) (outStream : S.OutStream)

/-- The collaborators of the driver.  Each function gives the result of the call of
the same name, or the exception it throws.  Their declarations are outside the driver;
what a call may change is taken from the call site and from the specification: `Update`
changes the trainer, `Evaluate` the evaluator (§4.5: evaluation is read-only with respect
to the dataset and the predictor), `AddToModel` the model, and every other object handed
to a call is left as it was (§5: the example store is read-only during training; §4.4:
a returned predictor shares no mutable state with the trainer). -/
structure Env (S : Sig) where
  /-- constructing the parser, adding the six option sets, and `Parse()` -/
  parse : List String → Except Exn (Arguments S)
  getCurrentValuesString : List String → Except Exn String
  /-- the field `dataLoadArguments.parsedDataDimension` -/
  parsedDataDimension : S.DataLoadArguments → S.DataDimension
  getOutputStreamImpostor : String → Except Exn S.OutStream
  loadModel : S.ModelLoadArguments → Except Exn S.Model
  buildCoordinateList : S.Model → S.DataDimension → String → Except Exn S.CoordinateList
  makeMap : S.Model → S.CoordinateList → Except Exn S.Map
  getRowDataset : S.DataLoadArguments → S.Map → Except Exn S.RowDataset
  makeSortingTreeTrainer :
    S.LossArguments → S.SortingTreeTrainerArguments → Except Exn S.BaseTrainer
  makeBaggingIncrementalTrainer :
    S.BaseTrainer → S.BaggingIncrementalTrainerArguments → Except Exn S.Trainer
  getIterator : S.RowDataset → Except Exn S.Iterator
  /-- `trainer->Update(it)`: the trainer after the call -/
  update : S.Trainer → S.Iterator → Except Exn S.Trainer
  getPredictor : S.Trainer → Except Exn S.Predictor
  makeBinaryClassificationEvaluator : S.LossArguments → Except Exn S.Evaluator
  /-- `evaluator->Evaluate(it, *predictor)`: the evaluator after the call -/
  evaluate : S.Evaluator → S.Iterator → S.Predictor → Except Exn S.Evaluator
  /-- `evaluator->Print(std::cout)`: the text it writes -/
  print : S.Evaluator → Except Exn String
  /-- `predictor->AddToModel(model, coordinates)`: the model after the call -/
  addToModel : S.Predictor → S.Model → S.CoordinateList → Except Exn S.Model
  save : S.Model → S.OutStream → Except Exn Unit

/-- What the driver has done so far. -/
structure World (S : Sig) where
  /-- text written to `std::cout` by the driver itself -/
  cout : String
  /-- text written to `std::cerr` -/
  cerr : String
  /-- external calls, oldest first -/
  calls : List (Call S)

/-- The state of the process when `main` is entered. -/
def World.start (S : Sig) : World S := ⟨"", "", []⟩

/-- How `main` ends: with a return value, or with an exception no handler caught. -/
inductive Outcome where
  | returned (code : Int)
  | uncaught (e : Exn)
deriving DecidableEq, Repr

/-! ## The monad of the driver -/

/-- A computation that may throw and that extends the `World`. -/
def Run (S : Sig) (α : Type) : Type := World S → Except Exn α × World S

/-- Sequencing: an exception skips the rest. -/
def Run.bind {S : Sig} {α β : Type} (m : Run S α) (f : α → Run S β) : Run S β :=
  fun w =>
    match m w with
    | (Except.ok a, w1) => f a w1
    | (Except.error e, w1) => (Except.error e, w1)

/-- A computation that does nothing and yields `a`. -/
def Run.pure {S : Sig} {α : Type} (a : α) : Run S α := fun w => (Except.ok a, w)

instance (S : Sig) : Monad (Run S) where
  pure := Run.pure
  bind := Run.bind

/-- Make the external call `c`, whose result is `r`. -/
def call {S : Sig} {α : Type} (c : Call S) (r : Except Exn α) : Run S α :=
  fun w => (r, { w with calls := w.calls ++ [c] })

/-- Write to standard output: `std::cout << s`. -/
def coutWrite {S : Sig} (s : String) : Run S Unit :=
  fun w => (Except.ok (), { w with cout := w.cout ++ s })

/-- Write to standard error: `std::cerr << s`. -/
def cerrWrite {S : Sig} (s : String) : Run S Unit :=
  fun w => (Except.ok (), { w with cerr := w.cerr ++ s })

/-! ## The driver -/

/-- The body of the `try` block of `main` (lines 52-121). -/
def tryBlock {S : Sig} (E : Env S) (argv : List String) : Run S Unit := do
  -- create a command line parser, add the option sets, parse the command line
  let args ← call (.parse argv) (E.parse argv)
  let trainerArguments := args.trainerArguments
  let mapLoadArguments := args.mapLoadArguments
  let dataLoadArguments := args.dataLoadArguments
  let mapSaveArguments := args.mapSaveArguments
  if trainerArguments.verbose then
    coutWrite "Bagging Tree Trainer\n"
    let values ← call (.getCurrentValuesString argv) (E.getCurrentValuesString argv)
    coutWrite (values ++ "\n")
  -- if output file specified, replace stdout with it
  let outStream ← call (.getOutputStreamImpostor mapSaveArguments.outputModelFile)
    (E.getOutputStreamImpostor mapSaveArguments.outputModelFile)
  -- load a model
  let model ← call (.loadModel mapLoadArguments.modelLoadArguments)
    (E.loadModel mapLoadArguments.modelLoadArguments)
  -- get output coordinate list and create the map
  let outputCoordinateList ←
    call (.buildCoordinateList model (E.parsedDataDimension dataLoadArguments)
        mapLoadArguments.coordinateListString)
      (E.buildCoordinateList model (E.parsedDataDimension dataLoadArguments)
        mapLoadArguments.coordinateListString)
  let map ← call (.makeMap model outputCoordinateList) (E.makeMap model outputCoordinateList)
  -- load dataset
  if trainerArguments.verbose then coutWrite "Loading data ...\n"
  let rowDataset ← call (.getRowDataset dataLoadArguments map)
    (E.getRowDataset dataLoadArguments map)
  -- create trainer
  let baseTrainer ←
    call (.makeSortingTreeTrainer trainerArguments.lossArguments args.sortingTreeTrainerArguments)
      (E.makeSortingTreeTrainer trainerArguments.lossArguments args.sortingTreeTrainerArguments)
  let trainer ←
    call (.makeBaggingIncrementalTrainer baseTrainer args.baggingIncrementalTrainerArguments)
      (E.makeBaggingIncrementalTrainer baseTrainer args.baggingIncrementalTrainerArguments)
  -- train
  if trainerArguments.verbose then coutWrite "Training ...\n"
  let trainSetIterator ← call (.getIterator rowDataset) (E.getIterator rowDataset)
  let trainer ← call (.update trainer trainSetIterator) (E.update trainer trainSetIterator)
  let predictor ← call (.getPredictor trainer) (E.getPredictor trainer)
  -- print loss and errors
  if trainerArguments.verbose then
    coutWrite "Finished training.\n"
    let evaluator ← call (.makeBinaryClassificationEvaluator trainerArguments.lossArguments)
      (E.makeBinaryClassificationEvaluator trainerArguments.lossArguments)
    let evaluationIterator ← call (.getIterator rowDataset) (E.getIterator rowDataset)
    let evaluator ← call (.evaluate evaluator evaluationIterator predictor)
      (E.evaluate evaluator evaluationIterator predictor)
    coutWrite "Training error\n"
    let text ← call (.print evaluator) (E.print evaluator)
    coutWrite text
    coutWrite "\n"
  -- add predictor to the model
  let model ← call (.addToModel predictor model outputCoordinateList)
    (E.addToModel predictor model outputCoordinateList)
  -- save the model
  call (.save model outStream) (E.save model outStream)

/-- The loop of the parse-error handler (lines 132-135): one line per parse error. -/
def writeParseErrors {S : Sig} : List ParseError → Run S Unit
  | [] => Run.pure ()
  | error :: rest => Run.bind (cerrWrite (error.getMessage ++ "\n")) fun _ =>
      writeParseErrors rest

/-- The three handlers of `main` (lines 124-142) applied to the exception `e`, and the
propagation of an exception that none of them catches. -/
def handler {S : Sig} (e : Exn) (w : World S) : Outcome × World S :=
  match e with
  | .printHelp helpText => (.returned 0, (coutWrite (helpText ++ "\n") w).2)
  | .parseError errors =>
      (.returned 1,
        (Run.bind (cerrWrite "Command line parse error:\n")
          (fun _ => writeParseErrors errors) w).2)
  | .runtimeError what => (.returned 1, (cerrWrite ("runtime error: " ++ what ++ "\n") w).2)
  | .other what => (.uncaught (.other what), w)

/-- The function `main` of the driver (lines 48-145). -/
def main {S : Sig} (E : Env S) (argv : List String) : Outcome × World S :=
  match tryBlock E argv (World.start S) with
  | (Except.ok (), w) => (.returned 0, w)
  | (Except.error e, w) => handler e w

/-! ## The driver, with `Update` and `Evaluate` read by reference

In `tryBlock` a call changes only what its result shows.  For what `Update` and
`Evaluate` do to the iterator and the predictor they are handed, the same block is read
once more with these objects passed by reference; `tryBlockRef_eq` shows that the two
readings agree when `Evaluate` leaves the predictor as it was. -/

/-- The collaborators with `Update` and `Evaluate` read by reference.  Next to what
`Env` says of a call, each function gives the state after the call of an object the call
was handed by reference: the iterator handed to `Update`, and the iterator, the
predictor (`*predictor`) and the row dataset the iterator runs over for `Evaluate`. -/
structure RefEnv (S : Sig) extends Env S where
  /-- `trainSetIterator` after `trainer->Update(trainSetIterator)` -/
  iteratorAfterUpdate : S.Trainer → S.Iterator → S.Iterator
  /-- `evaluationIterator` after `evaluator->Evaluate(evaluationIterator, *predictor)` -/
  iteratorAfterEvaluate : S.Evaluator → S.Iterator → S.Predictor → S.Iterator
  /-- `*predictor` after `evaluator->Evaluate(evaluationIterator, *predictor)` -/
  predictorAfterEvaluate : S.Evaluator → S.Iterator → S.Predictor → S.Predictor
  /-- `rowDataset` after `evaluator->Evaluate(evaluationIterator, *predictor)` -/
  datasetAfterEvaluate : S.Evaluator → S.Iterator → S.Predictor → S.RowDataset → S.RowDataset

set_option linter.unusedVariables false in
/-- The body of the `try` block of `main` (lines 52-121) with `Update` and `Evaluate`
read by reference: a variable handed to one of them holds, from then on, what the call
left in it. -/
def tryBlockRef {S : Sig} (R : RefEnv S) (argv : List String) : Run S Unit := do
  -- create a command line parser, add the option sets, parse the command line
  let args ← call (.parse argv) (R.parse argv)
  let trainerArguments := args.trainerArguments
  let mapLoadArguments := args.mapLoadArguments
  let dataLoadArguments := args.dataLoadArguments
  let mapSaveArguments := args.mapSaveArguments
  if trainerArguments.verbose then
    coutWrite "Bagging Tree Trainer\n"
    let values ← call (.getCurrentValuesString argv) (R.getCurrentValuesString argv)
    coutWrite (values ++ "\n")
  -- if output file specified, replace stdout with it
  let outStream ← call (.getOutputStreamImpostor mapSaveArguments.outputModelFile)
    (R.getOutputStreamImpostor mapSaveArguments.outputModelFile)
  -- load a model
  let model ← call (.loadModel mapLoadArguments.modelLoadArguments)
    (R.loadModel mapLoadArguments.modelLoadArguments)
  -- get output coordinate list and create the map
  let outputCoordinateList ←
    call (.buildCoordinateList model (R.parsedDataDimension dataLoadArguments)
        mapLoadArguments.coordinateListString)
      (R.buildCoordinateList model (R.parsedDataDimension dataLoadArguments)
        mapLoadArguments.coordinateListString)
  let map ← call (.makeMap model outputCoordinateList) (R.makeMap model outputCoordinateList)
  -- load dataset
  if trainerArguments.verbose then coutWrite "Loading data ...\n"
  let mut rowDataset ← call (.getRowDataset dataLoadArguments map)
    (R.getRowDataset dataLoadArguments map)
  -- create trainer
  let baseTrainer ←
    call (.makeSortingTreeTrainer trainerArguments.lossArguments args.sortingTreeTrainerArguments)
      (R.makeSortingTreeTrainer trainerArguments.lossArguments args.sortingTreeTrainerArguments)
  let constructed ←
    call (.makeBaggingIncrementalTrainer baseTrainer args.baggingIncrementalTrainerArguments)
      (R.makeBaggingIncrementalTrainer baseTrainer args.baggingIncrementalTrainerArguments)
  -- train
  if trainerArguments.verbose then coutWrite "Training ...\n"
  let mut trainSetIterator ← call (.getIterator rowDataset) (R.getIterator rowDataset)
  let trainer ← call (.update constructed trainSetIterator)
    (R.update constructed trainSetIterator)
  trainSetIterator := R.iteratorAfterUpdate constructed trainSetIterator
  let mut predictor ← call (.getPredictor trainer) (R.getPredictor trainer)
  -- print loss and errors
  if trainerArguments.verbose then
    coutWrite "Finished training.\n"
    let evaluator ← call (.makeBinaryClassificationEvaluator trainerArguments.lossArguments)
      (R.makeBinaryClassificationEvaluator trainerArguments.lossArguments)
    let mut evaluationIterator ← call (.getIterator rowDataset) (R.getIterator rowDataset)
    let evaluated ← call (.evaluate evaluator evaluationIterator predictor)
      (R.evaluate evaluator evaluationIterator predictor)
    rowDataset := R.datasetAfterEvaluate evaluator evaluationIterator predictor rowDataset
    (evaluationIterator, predictor) :=
      (R.iteratorAfterEvaluate evaluator evaluationIterator predictor,
        R.predictorAfterEvaluate evaluator evaluationIterator predictor)
    coutWrite "Training error\n"
    let text ← call (.print evaluated) (R.print evaluated)
    coutWrite text
    coutWrite "\n"
  -- add predictor to the model
  let model ← call (.addToModel predictor model outputCoordinateList)
    (R.addToModel predictor model outputCoordinateList)
  -- save the model
  call (.save model outStream) (R.save model outStream)

/-- The function `main` with `Update` and `Evaluate` read by reference. -/
def mainRef {S : Sig} (R : RefEnv S) (argv : List String) : Outcome × World S :=
  match tryBlockRef R argv (World.start S) with
  | (Except.ok (), w) => (.returned 0, w)
  | (Except.error e, w) => handler e w


/-! ## Observations on a run -/

/-- The exception carried by a result, if any. -/
def failureOf {α : Type} : Except Exn α → Option Exn
  | Except.ok _ => none
  | Except.error e => some e

/-- The exception the collaborators throw on the call `c`, if any. -/
def Env.failure {S : Sig} (E : Env S) : Call S → Option Exn
  | .parse argv => failureOf (E.parse argv)
  | .getCurrentValuesString argv => failureOf (E.getCurrentValuesString argv)
  | .getOutputStreamImpostor f => failureOf (E.getOutputStreamImpostor f)
  | .loadModel a => failureOf (E.loadModel a)
  | .buildCoordinateList m d s => failureOf (E.buildCoordinateList m d s)
  | .makeMap m c => failureOf (E.makeMap m c)
  | .getRowDataset a m => failureOf (E.getRowDataset a m)
  | .makeSortingTreeTrainer l a => failureOf (E.makeSortingTreeTrainer l a)
  | .makeBaggingIncrementalTrainer b a => failureOf (E.makeBaggingIncrementalTrainer b a)
  | .getIterator d => failureOf (E.getIterator d)
  | .update t i => failureOf (E.update t i)
  | .getPredictor t => failureOf (E.getPredictor t)
  | .makeBinaryClassificationEvaluator l => failureOf (E.makeBinaryClassificationEvaluator l)
  | .evaluate ev i p => failureOf (E.evaluate ev i p)
  | .print ev => failureOf (E.print ev)
  | .addToModel p m c => failureOf (E.addToModel p m c)
  | .save m o => failureOf (E.save m o)

/-- Is the call `trainer->Update(...)`? -/
def Call.isUpdate {S : Sig} : Call S → Bool
  | .update _ _ => true
  | _ => false

/-- Is the call `trainer->GetPredictor()`? -/
def Call.isGetPredictor {S : Sig} : Call S → Bool
  | .getPredictor _ => true
  | _ => false

/-- Is the call `evaluator->Evaluate(...)`? -/
def Call.isEvaluate {S : Sig} : Call S → Bool
  | .evaluate _ _ _ => true
  | _ => false

/-- Is the call `predictor->AddToModel(...)`? -/
def Call.isAddToModel {S : Sig} : Call S → Bool
  | .addToModel _ _ _ => true
  | _ => false

/-- Is the call `model.Save(...)`? -/
def Call.isSave {S : Sig} : Call S → Bool
  | .save _ _ => true
  | _ => false

/-- Is the call the construction of one of the two trainers? -/
def Call.isConstruction {S : Sig} : Call S → Bool
  | .makeSortingTreeTrainer _ _ => true
  | .makeBaggingIncrementalTrainer _ _ => true
  | _ => false

/-- The text of `lines`, each followed by a newline. -/
def linesOf : List String → String
  | [] => ""
  | l :: ls => l ++ "\n" ++ linesOf ls

/-- Is the exception the help request of the command-line parser? -/
def Exn.isPrintHelp : Exn → Bool
  | .printHelp _ => true
  | _ => false

/-- The values a run of the driver binds on the way from `Parse` to `Save`. -/
structure Bindings (S : Sig) where
  args : Arguments S
  outStream : S.OutStream
  model : S.Model
  outputCoordinateList : S.CoordinateList
  map : S.Map
  rowDataset : S.RowDataset
  baseTrainer : S.BaseTrainer
  /-- the bagging trainer as constructed -/
  trainer : S.Trainer
  trainSetIterator : S.Iterator
  /-- the bagging trainer after `Update` -/
  trained : S.Trainer
  predictor : S.Predictor
  /-- the model after `AddToModel` -/
  merged : S.Model

/-- Every step from `Parse` to `Save`, the verbose-only ones apart, returns the value
recorded in `b`. -/
structure Bindings.Ok {S : Sig} (E : Env S) (argv : List String) (b : Bindings S) : Prop where
  parse : E.parse argv = Except.ok b.args
  outStream :
    E.getOutputStreamImpostor b.args.mapSaveArguments.outputModelFile = Except.ok b.outStream
  model : E.loadModel b.args.mapLoadArguments.modelLoadArguments = Except.ok b.model
  outputCoordinateList :
    E.buildCoordinateList b.model (E.parsedDataDimension b.args.dataLoadArguments)
      b.args.mapLoadArguments.coordinateListString = Except.ok b.outputCoordinateList
  map : E.makeMap b.model b.outputCoordinateList = Except.ok b.map
  rowDataset : E.getRowDataset b.args.dataLoadArguments b.map = Except.ok b.rowDataset
  baseTrainer :
    E.makeSortingTreeTrainer b.args.trainerArguments.lossArguments
      b.args.sortingTreeTrainerArguments = Except.ok b.baseTrainer
  trainer :
    E.makeBaggingIncrementalTrainer b.baseTrainer b.args.baggingIncrementalTrainerArguments =
      Except.ok b.trainer
  trainSetIterator : E.getIterator b.rowDataset = Except.ok b.trainSetIterator
  trained : E.update b.trainer b.trainSetIterator = Except.ok b.trained
  predictor : E.getPredictor b.trained = Except.ok b.predictor
  merged : E.addToModel b.predictor b.model b.outputCoordinateList = Except.ok b.merged
  save : E.save b.merged b.outStream = Except.ok ()

/-- The values a verbose run binds in addition. -/
structure EvalBindings (S : Sig) where
  currentValues : String
  evaluator : S.Evaluator
  evaluationIterator : S.Iterator
  /-- the evaluator after `Evaluate` -/
  evaluated : S.Evaluator
  text : String

/-- Every verbose-only step returns the value recorded in `v`. -/
structure EvalBindings.Ok {S : Sig} (E : Env S) (argv : List String) (b : Bindings S)
    (v : EvalBindings S) : Prop where
  currentValues : E.getCurrentValuesString argv = Except.ok v.currentValues
  evaluator :
    E.makeBinaryClassificationEvaluator b.args.trainerArguments.lossArguments =
      Except.ok v.evaluator
  evaluationIterator : E.getIterator b.rowDataset = Except.ok v.evaluationIterator
  evaluated : E.evaluate v.evaluator v.evaluationIterator b.predictor = Except.ok v.evaluated
  text : E.print v.evaluated = Except.ok v.text

/-- The calls from `Parse` to `GetPredictor`, without those of a verbose run. -/
def Bindings.trainingCalls {S : Sig} (E : Env S) (b : Bindings S) : List (Call S) :=
  [.getOutputStreamImpostor b.args.mapSaveArguments.outputModelFile,
   .loadModel b.args.mapLoadArguments.modelLoadArguments,
   .buildCoordinateList b.model (E.parsedDataDimension b.args.dataLoadArguments)
     b.args.mapLoadArguments.coordinateListString,
   .makeMap b.model b.outputCoordinateList,
   .getRowDataset b.args.dataLoadArguments b.map,
   .makeSortingTreeTrainer b.args.trainerArguments.lossArguments
     b.args.sortingTreeTrainerArguments,
   .makeBaggingIncrementalTrainer b.baseTrainer b.args.baggingIncrementalTrainerArguments,
   .getIterator b.rowDataset,
   .update b.trainer b.trainSetIterator,
   .getPredictor b.trained]

/-- The calls of the evaluation block of a verbose run. -/
def EvalBindings.calls {S : Sig} (b : Bindings S) (v : EvalBindings S) : List (Call S) :=
  [.makeBinaryClassificationEvaluator b.args.trainerArguments.lossArguments,
   .getIterator b.rowDataset,
   .evaluate v.evaluator v.evaluationIterator b.predictor,
   .print v.evaluated]

/-- The last two calls of a run that completes. -/
def Bindings.finalCalls {S : Sig} (b : Bindings S) : List (Call S) :=
  [.addToModel b.predictor b.model b.outputCoordinateList, .save b.merged b.outStream]

/-- What a verbose run that completes writes to standard output. -/
def EvalBindings.cout {S : Sig} (v : EvalBindings S) : String :=
  "Bagging Tree Trainer\n" ++ (v.currentValues ++ "\n") ++ "Loading data ...\n" ++
    "Training ...\n" ++ "Finished training.\n" ++ "Training error\n" ++ v.text ++ "\n"

/-- The world after the external call `c`. -/
def World.log {S : Sig} (w : World S) (c : Call S) : World S := { w with calls := w.calls ++ [c] }

/-- The world after writing `s` to standard output. -/
def World.out {S : Sig} (w : World S) (s : String) : World S := { w with cout := w.cout ++ s }

/-- The world at the end of a quiet run that completes. -/
def Bindings.quietWorld {S : Sig} (E : Env S) (argv : List String) (b : Bindings S) : World S :=
  ⟨"", "", Call.parse argv :: (b.trainingCalls E ++ b.finalCalls)⟩

/-- The world at the end of a verbose run that completes. -/
def Bindings.verboseWorld {S : Sig} (E : Env S) (argv : List String) (b : Bindings S)
    (v : EvalBindings S) : World S :=
  ⟨v.cout, "",
    Call.parse argv :: Call.getCurrentValuesString argv ::
      (b.trainingCalls E ++ v.calls b ++ b.finalCalls)⟩

/-- No call of `l` throws. -/
def Tidy {S : Sig} (E : Env S) (l : List (Call S)) : Prop := ∀ c ∈ l, E.failure c = none

/-- The step from `w` to `x` only adds calls, leaves `std::cerr` alone, and throws
exactly when its last call throws. -/
def Faithful {S : Sig} {α : Type} (E : Env S) (w : World S) (x : Except Exn α × World S) : Prop :=
  ∃ new, x.2.calls = w.calls ++ new ∧ x.2.cerr = w.cerr ∧
    match x.1 with
    | Except.ok _ => Tidy E new
    | Except.error e => ∃ pre c, new = pre ++ [c] ∧ Tidy E pre ∧ E.failure c = some e

/-- Every step of `m` is faithful. -/
def Sound {S : Sig} {α : Type} (E : Env S) (m : Run S α) : Prop := ∀ w, Faithful E w (m w)

/-- The arguments `args` with the verbose flag set to `verbose`. -/
def Arguments.setVerbose {S : Sig} (args : Arguments S) (verbose : Bool) : Arguments S :=
  { args with trainerArguments := { args.trainerArguments with verbose := verbose } }

/-- The collaborators `E` on command lines whose verbose flag is `verbose` and whose
other options are unchanged. -/
def Env.withVerbose {S : Sig} (E : Env S) (verbose : Bool) : Env S :=
  { E with
    parse := fun argv =>
      match E.parse argv with
      | Except.ok args => Except.ok (args.setVerbose verbose)
      | Except.error e => Except.error e }

/-- The collaborators `R` on command lines whose verbose flag is `verbose` and whose
other options are unchanged. -/
def RefEnv.withVerbose {S : Sig} (R : RefEnv S) (verbose : Bool) : RefEnv S :=
  { R with toEnv := R.toEnv.withVerbose verbose }

/-! ## The trainers, as the specification describes them

The driver only calls the trainers.  What follows models the Bagging Incremental
Trainer of the specification (§3, §4.4, §7) so that the properties the specification
gives it can be followed through the driver.  Real numbers are rationals; the
Single-Tree Inducer and the pseudo-random generator are parameters.  A rejection is a
`std::runtime_error`, the one failure of a collaborator that the driver handles. -/

/-- Modelled from the spec: the loss-function choice of the configuration surface
(§6), which the driver passes on without reading it; §2 names the two implementations. -/
inductive LossFunction where
  | squared
  | log
deriving DecidableEq, Repr

/-- Modelled from the spec: the Example of §3, whose declaration the driver only
includes: feature vector, label and weight. -/
structure Example where
  features : List Rat
  label : Rat
  weight : Rat
deriving DecidableEq

/-- Modelled from the spec: the Tree Node of §3 (the Decision Tree Predictor wraps a
root node), declared outside the driver. -/
inductive TreeNode where
  | leaf (output : Rat)
  | internal (feature : Nat) (threshold : Rat) (left right : TreeNode)
deriving DecidableEq

/-- Modelled from the spec: the Ensemble Predictor of §3, an ordered sequence of
(predictor, weight) pairs; its class is declared outside the driver. -/
abbrev EnsemblePredictor : Type := List (TreeNode × Rat)

/-- Modelled from the spec: the inducer part of the configuration surface (§4.2, §6):
maximum tree depth, minimum examples per leaf, minimum gain.  The argument struct is
declared outside the driver. -/
structure InducerConfig where
  maxDepth : Int
  minExamplesPerLeaf : Nat
  minGain : Rat
deriving DecidableEq

/-- Modelled from the spec: the bagging part of the configuration surface (§4.4, §6):
trees per update, bootstrap sample size (the number of examples when absent), per-tree
weight, random seed.  The argument struct is declared outside the driver. -/
structure BaggingConfig where
  numTreesPerUpdate : Nat
  sampleSize : Option Nat
  treeWeight : Rat
  seed : Nat
deriving DecidableEq

/-- Modelled from the spec: the two collaborators of the bagging trainer whose
internals §4.4 does not fix: `Train` of the Single-Tree Inducer (§4.2), a function of
the example store, the sample, the loss and the configuration, and one step of the
pseudo-random generator, from a state to a drawn number and the next state. -/
structure Learner where
  train : LossFunction → InducerConfig → List Example → List Nat → TreeNode
  next : Nat → Nat × Nat

/-- Modelled from the spec: the Single-Tree Inducer object ("sorting tree trainer")
returned by `MakeSortingTreeTrainer`, whose class is outside the driver. -/
structure SortingTreeTrainer where
  loss : LossFunction
  config : InducerConfig
deriving DecidableEq

/-- Modelled from the spec: the Trainer State of §3: the accumulating ensemble and the
state of the generator, next to the configuration fixed at construction.  The class is
outside the driver. -/
structure BaggingIncrementalTrainer where
  baseTrainer : SortingTreeTrainer
  config : BaggingConfig
  ensemble : EnsemblePredictor
  generator : Nat
deriving DecidableEq

/-- Modelled from the spec: `MakeSortingTreeTrainer`, absent from the sources; §4.4 and
§7 (a): a depth ≤ 0 is rejected at construction. -/
def makeSortingTreeTrainer (loss : LossFunction) (config : InducerConfig) :
    Except Exn SortingTreeTrainer :=
  if config.maxDepth ≤ 0 then
    Except.error (.runtimeError "invalid configuration: depth")
  else
    Except.ok ⟨loss, config⟩

/-- Modelled from the spec: `MakeBaggingIncrementalTrainer`, absent from the sources;
§4.4 and §7 (a): zero trees or a zero sample size is rejected at construction.  A new
trainer holds an empty ensemble and a generator in the state given by the seed. -/
def makeBaggingIncrementalTrainer (baseTrainer : SortingTreeTrainer) (config : BaggingConfig) :
    Except Exn BaggingIncrementalTrainer :=
  if config.numTreesPerUpdate = 0 ∨ config.sampleSize = some 0 then
    Except.error (.runtimeError "invalid configuration: trees or sample size")
  else
    Except.ok ⟨baseTrainer, config, [], config.seed⟩

/-- Modelled from the spec: the Bootstrap Sample of §3, absent from the sources: `size`
indices below `n` drawn with replacement, one generator step each. -/
def drawSample (L : Learner) (n : Nat) : Nat → Nat → List Nat × Nat
  | 0, g => ([], g)
  | size + 1, g =>
    let drawn := L.next g
    let rest := drawSample L n size drawn.2
    (drawn.1 % n :: rest.1, rest.2)

/-- Modelled from the spec: the loop of `Update` (§4.4), absent from the sources: for
each of `count` iterations draw a bootstrap sample, train a tree on it and append the
tree to the ensemble with the configured weight. -/
def growEnsemble (L : Learner) (store : List Example) :
    Nat → BaggingIncrementalTrainer → BaggingIncrementalTrainer
  | 0, t => t
  | count + 1, t =>
    let sample := drawSample L store.length (t.config.sampleSize.getD store.length) t.generator
    let tree := L.train t.baseTrainer.loss t.baseTrainer.config store sample.1
    growEnsemble L store count
      { t with ensemble := t.ensemble ++ [(tree, t.config.treeWeight)], generator := sample.2 }

/-- Modelled from the spec: `Update` of the Bagging Incremental Trainer (§4.4), absent
from the sources.  The iterator is the list of the examples it yields; an empty one is
rejected and leaves the trainer as it was. -/
def update (L : Learner) (t : BaggingIncrementalTrainer) (examples : List Example) :
    Except Exn BaggingIncrementalTrainer :=
  if examples.isEmpty then
    Except.error (.runtimeError "empty example store")
  else
    Except.ok (growEnsemble L examples t.config.numTreesPerUpdate t)

/-- Modelled from the spec: `GetPredictor` (§4.4), absent from the sources: the
accumulated ensemble. -/
def getPredictor (t : BaggingIncrementalTrainer) : Except Exn EnsemblePredictor :=
  Except.ok t.ensemble

/-- Modelled from the spec: the incremental contract of §4.4, absent from the sources: a
sequence of `Update` calls on one trainer, one per example store; a rejected call ends
the sequence. -/
def updates (L : Learner) (t : BaggingIncrementalTrainer) :
    List (List Example) → Except Exn BaggingIncrementalTrainer
  | [] => Except.ok t
  | store :: rest =>
    match update L t store with
    | Except.ok t1 => updates L t1 rest
    | Except.error e => Except.error e

/-- Modelled from the spec: the signature `B` with the trainer-side types of the
specification in place of the types the driver leaves open; an Example Store (§3) is the
list of its examples, and so is an iterator over it. -/
@[reducible] def specSig (B : Sig) : Sig :=
  { B with
    LossArguments := LossFunction
    SortingTreeTrainerArguments := InducerConfig
    BaggingIncrementalTrainerArguments := BaggingConfig
    RowDataset := List Example
    Iterator := List Example
    BaseTrainer := SortingTreeTrainer
    Trainer := BaggingIncrementalTrainer
    Predictor := EnsemblePredictor }

/-- Modelled from the spec: the collaborators `X` with the trainers of the specification
in place of the trainer-side ones, which are absent from the sources; a fresh iterator of
a row dataset yields all its examples (§3: a restartable forward iterator). -/
def specEnv {B : Sig} (L : Learner) (X : Env (specSig B)) : Env (specSig B) :=
  { X with
    makeSortingTreeTrainer := makeSortingTreeTrainer
    makeBaggingIncrementalTrainer := makeBaggingIncrementalTrainer
    getIterator := fun rowDataset => Except.ok rowDataset
    update := update L
    getPredictor := getPredictor }

/-! ## The ensemble as a function of the seed and the call sequence -/

/-- Modelled from the spec: the state of the trainer's generator after `n` draws from
`seed` (§3: the state persists and advances across calls; §9: it is captured by the seed
and the call sequence).  The generator itself is absent from the sources. -/
def Learner.stateAfter (L : Learner) (seed : Nat) : Nat → Nat
  | 0 => seed
  | n + 1 => (L.next (L.stateAfter seed n)).2

/-- Modelled from the spec: the `n`-th number the generator draws when started from
`seed`, counting from zero. -/
def Learner.drawn (L : Learner) (seed n : Nat) : Nat := (L.next (L.stateAfter seed n)).1

/-- Modelled from the spec: the bootstrap sample (§3) made of the draws number `offset`
to `offset + size - 1` of the generator started from `seed`, each reduced to an index
below `n`. -/
def sampleAt (L : Learner) (seed offset n size : Nat) : List Nat :=
  (List.range size).map fun q => L.drawn seed (offset + q) % n

/-- The bootstrap sample size of one `Update` on `store`: the configured one, or the
number of examples. -/
def BaggingConfig.sizeOn (config : BaggingConfig) (store : List Example) : Nat :=
  config.sampleSize.getD store.length

/-- Modelled from the spec: the trees one `Update` on `store` appends (§4.4) when the
generator has made `offset` draws since it was seeded: tree number `r` is trained on the
sample that starts at draw `offset + r * size`, and has the configured weight. -/
def treesAt (L : Learner) (baseTrainer : SortingTreeTrainer) (config : BaggingConfig)
    (offset : Nat) (store : List Example) : EnsemblePredictor :=
  (List.range config.numTreesPerUpdate).map fun r =>
    (L.train baseTrainer.loss baseTrainer.config store
      (sampleAt L config.seed (offset + r * config.sizeOn store) store.length
        (config.sizeOn store)),
      config.treeWeight)

/-- Modelled from the spec: the ensemble a sequence of `Update` calls builds, one call
per store, as a function of the seed, the configuration and the call sequence alone
(§8 reproducibility, §9): the trees of each call in order, every call starting where the
draws of the one before ended. -/
def ensembleAt (L : Learner) (baseTrainer : SortingTreeTrainer) (config : BaggingConfig) :
    Nat → List (List Example) → EnsemblePredictor
  | _, [] => []
  | offset, store :: rest =>
    treesAt L baseTrainer config offset store ++
      ensembleAt L baseTrainer config
        (offset + config.numTreesPerUpdate * config.sizeOn store) rest

/-- The number of draws a sequence of `Update` calls makes. -/
def drawsOf (config : BaggingConfig) : List (List Example) → Nat
  | [] => 0
  | store :: rest => config.numTreesPerUpdate * config.sizeOn store + drawsOf config rest

/-! ## The evaluator, as the specification describes it -/

/-- Modelled from the spec: the value of the logistic loss `log(1 + exp(-y·p))` (§4.1) at
a prediction and a label, a real number; the loss functions are absent from the sources
and this one is taken as a parameter with rational values. -/
structure LossNumerics where
  logLoss : Rat → Rat → Rat

/-- Modelled from the spec: `Value(prediction, label)` of the Loss Function (§4.1),
absent from the sources: squared loss is `(p - y)^2 / 2`. -/
def lossValue (N : LossNumerics) : LossFunction → Rat → Rat → Rat
  | .squared, p, y => (p - y) * (p - y) / 2
  | .log, p, y => N.logLoss p y

/-- Modelled from the spec: `Predict` of the Decision Tree Predictor (§4.3), absent from
the sources: left when the feature is at most the threshold, else right, down to a
leaf. -/
def TreeNode.predict : TreeNode → List Rat → Rat
  | .leaf output, _ => output
  | .internal feature threshold left right, x =>
    if x.getD feature 0 ≤ threshold then left.predict x else right.predict x

/-- Modelled from the spec: `Predict` of the Ensemble Predictor (§4.3), absent from the
sources: the weighted sum of the trees' predictions. -/
def ensemblePredict (p : EnsemblePredictor) (x : List Rat) : Rat :=
  (p.map fun tree => tree.2 * tree.1.predict x).sum

/-- Modelled from the spec: the Evaluator (§4.5), whose class is outside the driver: the
configured loss, the total weighted loss, the number of classification errors and the
number of examples seen. -/
structure BinaryClassificationEvaluator where
  loss : LossFunction
  totalLoss : Rat
  errors : Nat
  examples : Nat
deriving DecidableEq

/-- Modelled from the spec: what one example adds to the Evaluator (§4.5): its weighted
loss under the configured loss function, and an error when the sign of the prediction
is not the sign of the label. -/
def BinaryClassificationEvaluator.add (N : LossNumerics) (ev : BinaryClassificationEvaluator)
    (x : Example) (prediction : Rat) : BinaryClassificationEvaluator :=
  { ev with
    totalLoss := ev.totalLoss + x.weight * lossValue N ev.loss prediction x.label
    errors := if decide (0 ≤ prediction) = decide (0 ≤ x.label) then ev.errors else ev.errors + 1
    examples := ev.examples + 1 }

/-- Modelled from the spec: the objects `Evaluate` is handed (§4.5): the evaluator, the
iterator (the examples still to come) and the predictor. -/
structure EvaluationState where
  evaluator : BinaryClassificationEvaluator
  iterator : List Example
  predictor : EnsemblePredictor

/-- Modelled from the spec: the single pass of `Evaluate` (§4.5), absent from the
sources: each example still to come is taken off the iterator, predicted with the
predictor and added to the evaluator. -/
def evaluatePass (N : LossNumerics) : List Example → EvaluationState → EvaluationState
  | [], s => { s with iterator := [] }
  | x :: rest, s =>
    evaluatePass N rest
      { s with
        evaluator := s.evaluator.add N x (ensemblePredict s.predictor x.features)
        iterator := rest }

/-- Modelled from the spec: `Evaluate(exampleIterator, predictor)` (§4.5), absent from
the sources: the three objects after the pass over the iterator. -/
def evaluate (N : LossNumerics) (ev : BinaryClassificationEvaluator) (it : List Example)
    (p : EnsemblePredictor) : EvaluationState :=
  evaluatePass N it ⟨ev, it, p⟩

/-- Modelled from the spec: the pass `Update` makes over its iterator (§4.4: it consumes
a fresh pass over the store), absent from the sources: the examples read and the
iterator afterwards. -/
def readAll : List Example → List Example × List Example
  | [] => ([], [])
  | x :: rest => (x :: (readAll rest).1, (readAll rest).2)

/-- Modelled from the spec: the signature `B` with the trainer-side types and the
evaluator of the specification. -/
@[reducible] def evalSig (B : Sig) : Sig :=
  specSig { B with Evaluator := BinaryClassificationEvaluator }

/-- Modelled from the spec: the collaborators `X` with the trainers and the evaluator of
the specification, which are absent from the sources, read by reference: `Update` leaves
its iterator where its pass ended, `Evaluate` leaves evaluator, iterator and predictor as
its pass does, and the dataset as it was (§4.5: evaluation is read-only with respect to
the dataset). -/
def specRefEnv {B : Sig} (L : Learner) (N : LossNumerics) (X : Env (evalSig B)) :
    RefEnv (evalSig B) where
  toEnv :=
    { specEnv L X with
      makeBinaryClassificationEvaluator := fun loss => Except.ok ⟨loss, 0, 0, 0⟩
      evaluate := fun ev it p => Except.ok (evaluate N ev it p).evaluator }
  iteratorAfterUpdate := fun _ it => (readAll it).2
  iteratorAfterEvaluate := fun ev it p => (evaluate N ev it p).iterator
  predictorAfterEvaluate := fun ev it p => (evaluate N ev it p).predictor
  datasetAfterEvaluate := fun _ _ _ d => d

/-! ## A small concrete environment -/

/-- A signature in which every object the trainers do not fix is a number. -/
@[reducible] def demoSig : Sig :=
  { LossArguments := Nat, ModelLoadArguments := Nat, DataLoadArguments := Nat,
    DataDimension := Nat, SortingTreeTrainerArguments := Nat,
    BaggingIncrementalTrainerArguments := Nat, OutStream := Nat, Model := Nat,
    CoordinateList := Nat, Map := Nat, RowDataset := Nat, Iterator := Nat, BaseTrainer := Nat,
    Trainer := Nat, Predictor := Nat, Evaluator := Nat }

/-- The parsed arguments of the concrete runs. -/
def demoArguments (S : Sig) (verbose : Bool) (loss : S.LossArguments)
    (load : S.ModelLoadArguments) (data : S.DataLoadArguments)
    (tree : S.SortingTreeTrainerArguments) (bag : S.BaggingIncrementalTrainerArguments) :
    Arguments S :=
  ⟨⟨verbose, loss⟩, ⟨load, "e"⟩, data, ⟨"out"⟩, tree, bag⟩

/-- Collaborators over numbers: every call succeeds; the model is a number to which
`AddToModel` adds the predictor. -/
def demoEnv (verbose : Bool) : Env demoSig where
  parse := fun _ => Except.ok (demoArguments demoSig verbose 1 2 3 4 5)
  getCurrentValuesString := fun _ => Except.ok "v"
  parsedDataDimension := fun d => d
  getOutputStreamImpostor := fun _ => Except.ok 7
  loadModel := fun a => Except.ok (a + 10)
  buildCoordinateList := fun m d _ => Except.ok (m + d)
  makeMap := fun m c => Except.ok (m * c)
  getRowDataset := fun a mp => Except.ok (a + mp)
  makeSortingTreeTrainer := fun l a => Except.ok (l + a)
  makeBaggingIncrementalTrainer := fun b a => Except.ok (b + a)
  getIterator := fun d => Except.ok d
  update := fun t i => Except.ok (t + i)
  getPredictor := fun t => Except.ok (2 * t)
  makeBinaryClassificationEvaluator := fun l => Except.ok l
  evaluate := fun ev i p => Except.ok (ev + i + p)
  print := fun _ => Except.ok "loss"
  addToModel := fun p m _ => Except.ok (m + p)
  save := fun _ _ => Except.ok ()

/-- The concrete collaborators with one call replaced by a throwing one. -/
def demoEnvFailing (e : Exn) : Env demoSig :=
  { demoEnv false with loadModel := fun _ => Except.error e }

/-- The concrete collaborators with a parser that throws `e`. -/
def demoEnvParse (e : Exn) : Env demoSig :=
  { demoEnv false with parse := fun _ => Except.error e }

/-- A learner for worked examples: every tree is a leaf, and the generator counts. -/
def demoLearner : Learner where
  train := fun _ _ _ sample => TreeNode.leaf sample.length
  next := fun g => (g, g + 1)

/-- Collaborators for worked examples over the trainers of the specification: the
dataset loaded is `data`, the configuration parsed is `tree` and `bag`. -/
def demoSpecEnv (data : List Example) (tree : InducerConfig) (bag : BaggingConfig) :
    Env (specSig demoSig) where
  parse := fun _ =>
    Except.ok (demoArguments (specSig demoSig) false LossFunction.squared 2 3 tree bag)
  getCurrentValuesString := fun _ => Except.ok "v"
  parsedDataDimension := fun d => d
  getOutputStreamImpostor := fun _ => Except.ok 7
  loadModel := fun a => Except.ok (a + 10)
  buildCoordinateList := fun m d _ => Except.ok (m + d)
  makeMap := fun m c => Except.ok (m * c)
  getRowDataset := fun _ _ => Except.ok data
  makeSortingTreeTrainer := fun _ _ => Except.error (.other "replaced")
  makeBaggingIncrementalTrainer := fun _ _ => Except.error (.other "replaced")
  getIterator := fun _ => Except.error (.other "replaced")
  update := fun _ _ => Except.error (.other "replaced")
  getPredictor := fun _ => Except.error (.other "replaced")
  makeBinaryClassificationEvaluator := fun _ => Except.ok 0
  evaluate := fun ev it p => Except.ok (ev + it.length + p.length)
  print := fun _ => Except.ok "loss"
  addToModel := fun p m _ => Except.ok (m + p.length)
  save := fun _ _ => Except.ok ()

/-- A learner for worked examples whose trees show the sample they were trained on. -/
def sumLearner : Learner where
  train := fun _ _ _ sample => TreeNode.internal sample.sum 0 (TreeNode.leaf 0) (TreeNode.leaf 0)
  next := fun g => (g, g + 1)

/-- Loss numerics for worked examples. -/
def demoNumerics : LossNumerics where
  logLoss := fun p y => (p - y) * (p - y)

/-- Collaborators for worked examples over the trainers and the evaluator of the
specification: the dataset loaded is `data`, the configuration parsed is `tree` and
`bag`. -/
def demoEvalEnv (data : List Example) (tree : InducerConfig) (bag : BaggingConfig) :
    Env (evalSig demoSig) where
  parse := fun _ =>
    Except.ok (demoArguments (evalSig demoSig) false LossFunction.squared 2 3 tree bag)
  getCurrentValuesString := fun _ => Except.ok "v"
  parsedDataDimension := fun d => d
  getOutputStreamImpostor := fun _ => Except.ok 7
  loadModel := fun a => Except.ok (a + 10)
  buildCoordinateList := fun m d _ => Except.ok (m + d)
  makeMap := fun m c => Except.ok (m * c)
  getRowDataset := fun _ _ => Except.ok data
  makeSortingTreeTrainer := fun _ _ => Except.error (.other "replaced")
  makeBaggingIncrementalTrainer := fun _ _ => Except.error (.other "replaced")
  getIterator := fun _ => Except.error (.other "replaced")
  update := fun _ _ => Except.error (.other "replaced")
  getPredictor := fun _ => Except.error (.other "replaced")
  makeBinaryClassificationEvaluator := fun _ => Except.error (.other "replaced")
  evaluate := fun _ _ _ => Except.error (.other "replaced")
  print := fun ev => Except.ok (toString ev.errors)
  addToModel := fun p m _ => Except.ok (m + p.length)
  save := fun _ _ => Except.ok ()

/-! ## Laws of the monad -/

section Laws
variable {S : Sig} {α β : Type}

theorem bind_def (m : Run S α) (f : α → Run S β) : (m >>= f) = Run.bind m f := rfl

theorem pure_def (a : α) : (pure a : Run S α) = Run.pure a := rfl

theorem bind_call_ok (c : Call S) (r : Except Exn α) (f : α → Run S β) (w : World S) (a : α)
    (h : r = Except.ok a) : Run.bind (call c r) f w = f a (w.log c) := by
  subst h; rfl

theorem bind_call_error (c : Call S) (r : Except Exn α) (f : α → Run S β) (w : World S)
    (e : Exn) (h : r = Except.error e) :
    Run.bind (call c r) f w = (Except.error e, w.log c) := by
  subst h; rfl

theorem bind_cout (s : String) (f : Unit → Run S β) (w : World S) :
    Run.bind (coutWrite s) f w = f () (w.out s) := rfl

theorem bind_pure (a : α) (f : α → Run S β) (w : World S) :
    Run.bind (Run.pure a) f w = f a w := rfl

theorem bind_call_eq (c : Call S) (r : Except Exn α) (f : α → Run S β) (w : World S)
    (x : Except Exn β × World S) :
    Run.bind (call c r) f w = x ↔
      (∃ e, r = Except.error e ∧ x = (Except.error e, w.log c)) ∨
      (∃ a, r = Except.ok a ∧ f a (w.log c) = x) := by
  cases r with
  | ok a => simp [bind_call_ok c _ f w a rfl]
  | error e => simp [bind_call_error c _ f w e rfl, eq_comm]

theorem call_eq (c : Call S) (r : Except Exn α) (w : World S) (x : Except Exn α × World S) :
    call c r w = x ↔ x = (r, w.log c) := by
  simp [call, World.log, eq_comm]

end Laws

/-! ## Runs that complete -/

section Complete
variable {S : Sig}

theorem tryBlock_complete (E : Env S) (argv : List String) (w : World S)
    (h : tryBlock E argv (World.start S) = (Except.ok (), w)) :
    ∃ b : Bindings S, b.Ok E argv ∧
      ((b.args.trainerArguments.verbose = false ∧ w = b.quietWorld E argv) ∨
       (b.args.trainerArguments.verbose = true ∧
          ∃ v : EvalBindings S, v.Ok E argv b ∧ w = b.verboseWorld E argv v)) := by
  simp only [tryBlock, bind_def, pure_def, bind_call_eq, bind_cout, bind_pure, call_eq] at h
  rcases h with ⟨e, _, he⟩ | ⟨args, hparse, h⟩
  · simp at he
  cases hv : args.trainerArguments.verbose <;>
    simp only [hv, Bool.false_eq_true, if_false, if_true, bind_call_eq, bind_cout, bind_pure,
      call_eq, Prod.mk.injEq, false_and, and_false, exists_false, false_or, reduceCtorEq] at h
  · obtain ⟨o, ho, m, hm, c, hc, mp, hmp, d, hd, bt, hbt, t, ht, it, hit, t1, ht1, p, hp, m1,
      hm1, hs, rfl⟩ := h
    refine ⟨⟨args, o, m, c, mp, d, bt, t, it, t1, p, m1⟩,
      ⟨hparse, ho, hm, hc, hmp, hd, hbt, ht, hit, ht1, hp, hm1, hs.symm⟩, Or.inl ⟨hv, ?_⟩⟩
    rfl
  · obtain ⟨cv, hcv, o, ho, m, hm, c, hc, mp, hmp, d, hd, bt, hbt, t, ht, it, hit, t1, ht1, p,
      hp, ev, hev, it2, hit2, ev1, hev1, tx, htx, m1, hm1, hs, rfl⟩ := h
    refine ⟨⟨args, o, m, c, mp, d, bt, t, it, t1, p, m1⟩,
      ⟨hparse, ho, hm, hc, hmp, hd, hbt, ht, hit, ht1, hp, hm1, hs.symm⟩,
      Or.inr ⟨hv, ⟨cv, ev, it2, ev1, tx⟩, ⟨hcv, hev, hit2, hev1, htx⟩, ?_⟩⟩
    simp [Bindings.verboseWorld, World.log, World.out, World.start, EvalBindings.cout,
      Bindings.trainingCalls, EvalBindings.calls, Bindings.finalCalls, String.append_assoc]

theorem tryBlock_of_ok_quiet (E : Env S) (argv : List String) (b : Bindings S)
    (hb : b.Ok E argv) (hv : b.args.trainerArguments.verbose = false) :
    tryBlock E argv (World.start S) = (Except.ok (), b.quietWorld E argv) := by
  simp only [tryBlock, bind_def, pure_def, bind_call_eq, bind_cout, bind_pure, call_eq]
  refine Or.inr ⟨b.args, hb.parse, ?_⟩
  simp only [hv, Bool.false_eq_true, if_false, bind_call_eq, bind_cout, bind_pure, call_eq]
  refine Or.inr ⟨_, hb.outStream, Or.inr ⟨_, hb.model, Or.inr ⟨_, hb.outputCoordinateList,
    Or.inr ⟨_, hb.map, Or.inr ⟨_, hb.rowDataset, Or.inr ⟨_, hb.baseTrainer, Or.inr ⟨_, hb.trainer,
    Or.inr ⟨_, hb.trainSetIterator, Or.inr ⟨_, hb.trained, Or.inr ⟨_, hb.predictor,
    Or.inr ⟨_, hb.merged, ?_⟩⟩⟩⟩⟩⟩⟩⟩⟩⟩⟩
  rw [hb.save]
  rfl

theorem tryBlock_of_ok_verbose (E : Env S) (argv : List String) (b : Bindings S)
    (v : EvalBindings S) (hb : b.Ok E argv) (hv : b.args.trainerArguments.verbose = true)
    (he : v.Ok E argv b) :
    tryBlock E argv (World.start S) = (Except.ok (), b.verboseWorld E argv v) := by
  simp only [tryBlock, bind_def, pure_def, bind_call_eq, bind_cout, bind_pure, call_eq]
  refine Or.inr ⟨b.args, hb.parse, ?_⟩
  simp only [hv, if_true, bind_call_eq, bind_cout, bind_pure, call_eq]
  refine Or.inr ⟨_, he.currentValues, Or.inr ⟨_, hb.outStream, Or.inr ⟨_, hb.model,
    Or.inr ⟨_, hb.outputCoordinateList,
    Or.inr ⟨_, hb.map, Or.inr ⟨_, hb.rowDataset, Or.inr ⟨_, hb.baseTrainer, Or.inr ⟨_, hb.trainer,
    Or.inr ⟨_, hb.trainSetIterator, Or.inr ⟨_, hb.trained, Or.inr ⟨_, hb.predictor,
    Or.inr ⟨_, he.evaluator, Or.inr ⟨_, he.evaluationIterator, Or.inr ⟨_, he.evaluated,
    Or.inr ⟨_, he.text, Or.inr ⟨_, hb.merged, ?_⟩⟩⟩⟩⟩⟩⟩⟩⟩⟩⟩⟩⟩⟩⟩⟩
  rw [hb.save]
  simp [Bindings.verboseWorld, World.log, World.out, World.start, EvalBindings.cout,
    Bindings.trainingCalls, EvalBindings.calls, Bindings.finalCalls, String.append_assoc]

end Complete

/-! ## Every exception comes from the last call -/

section Sound
variable {S : Sig} {α β : Type}

theorem sound_pure (E : Env S) (a : α) : Sound E (Run.pure a : Run S α) := by
  intro w
  exact ⟨[], by simp [Run.pure], rfl, by simp [Run.pure, Tidy]⟩

theorem sound_cout (E : Env S) (s : String) : Sound E (coutWrite s : Run S Unit) := by
  intro w
  exact ⟨[], by simp [coutWrite], rfl, by simp [coutWrite, Tidy]⟩

theorem sound_call (E : Env S) (c : Call S) (r : Except Exn α) (h : E.failure c = failureOf r) :
    Sound E (call c r) := by
  intro w
  refine ⟨[c], rfl, rfl, ?_⟩
  cases r with
  | ok a => simpa [call, Tidy, failureOf] using h
  | error e => exact ⟨[], c, rfl, by simp [Tidy], by simpa [failureOf] using h⟩

theorem sound_bind (E : Env S) (m : Run S α) (f : α → Run S β) (hm : Sound E m)
    (hf : ∀ a, Sound E (f a)) : Sound E (Run.bind m f) := by
  intro w
  obtain ⟨new, hcalls, hcerr, hres⟩ := hm w
  unfold Run.bind
  rcases hmw : m w with ⟨r, w1⟩
  rw [hmw] at hcalls hcerr hres
  cases r with
  | error e => exact ⟨new, hcalls, hcerr, hres⟩
  | ok a =>
    obtain ⟨new1, hcalls1, hcerr1, hres1⟩ := hf a w1
    refine ⟨new ++ new1, ?_, ?_, ?_⟩
    · simp only [hcalls1]; simp only at hcalls; rw [hcalls, List.append_assoc]
    · simp only [hcerr1]; exact hcerr
    · simp only at hres hres1 ⊢
      rcases hfa : (f a w1).1 with e | u
      · rw [hfa] at hres1
        obtain ⟨pre, c, hnew, hpre, hc⟩ := hres1
        refine ⟨new ++ pre, c, by rw [hnew, List.append_assoc], ?_, hc⟩
        intro c1 hc1
        rcases List.mem_append.1 hc1 with h1 | h1
        · exact hres c1 h1
        · exact hpre c1 h1
      · rw [hfa] at hres1
        intro c1 hc1
        rcases List.mem_append.1 hc1 with h1 | h1
        · exact hres c1 h1
        · exact hres1 c1 h1

theorem sound_ite (E : Env S) (b : Bool) (m m1 : Run S α) (hm : Sound E m) (hm1 : Sound E m1) :
    Sound E (if b = true then m else m1) := by
  cases b
  · simpa using hm1
  · simpa using hm

theorem tryBlock_sound (E : Env S) (argv : List String) : Sound E (tryBlock E argv) := by
  unfold tryBlock
  simp only [bind_def, pure_def]
  repeat' first
    | exact sound_call E _ _ rfl
    | exact sound_cout E _
    | exact sound_pure E _
    | apply sound_ite
    | apply sound_bind
    | intro _

end Sound

/-! ## What a call in the trace tells about the calls before it

Each lemma follows the `try` block step by step: at every call either the call throws,
and the run ends there, or it returns and the run goes on. -/

section Order
variable {S : Sig}

set_option maxHeartbeats 1000000 in
theorem calls_of_save (E : Env S) (argv : List String) (x : Except Exn Unit × World S)
    (h : tryBlock E argv (World.start S) = x) :
    (∀ t1, Call.getPredictor t1 ∈ x.2.calls →
      ∃ t it, Call.update t it ∈ x.2.calls ∧ E.update t it = Except.ok t1) ∧
    (∀ p m c, Call.addToModel p m c ∈ x.2.calls →
      ∃ t1, Call.getPredictor t1 ∈ x.2.calls ∧ E.getPredictor t1 = Except.ok p) ∧
    (∀ m o, Call.save m o ∈ x.2.calls →
      ∃ p m0 c, Call.addToModel p m0 c ∈ x.2.calls ∧ E.addToModel p m0 c = Except.ok m) := by
  simp only [tryBlock, bind_def, pure_def, bind_call_eq, bind_cout, bind_pure, call_eq] at h
  rcases h with ⟨e, _, rfl⟩ | ⟨args, hparse, h⟩
  · simp [World.log, World.start]
  cases hv : args.trainerArguments.verbose <;>
    simp only [hv, Bool.false_eq_true, if_false, if_true, bind_call_eq, bind_cout, bind_pure,
      call_eq] at h
  · repeat
      rcases h with ⟨e, _, rfl⟩ | ⟨a, ha, h⟩
      · first
        | (simp [World.log, World.out, World.start, and_assoc, *]; done)
        | simp_all [World.log, World.out, World.start, and_assoc]
  · repeat
      rcases h with ⟨e, _, rfl⟩ | ⟨a, ha, h⟩
      · first
        | (simp [World.log, World.out, World.start, and_assoc, *]; done)
        | simp_all [World.log, World.out, World.start, and_assoc]

set_option maxHeartbeats 1000000 in
theorem calls_of_update (E : Env S) (argv : List String) (x : Except Exn Unit × World S)
    (h : tryBlock E argv (World.start S) = x) :
    ∀ t it, Call.update t it ∈ x.2.calls →
      ∃ args baseTrainer mp d,
        E.parse argv = Except.ok args ∧
        E.makeSortingTreeTrainer args.trainerArguments.lossArguments
          args.sortingTreeTrainerArguments = Except.ok baseTrainer ∧
        E.makeBaggingIncrementalTrainer baseTrainer args.baggingIncrementalTrainerArguments =
          Except.ok t ∧
        Call.getRowDataset args.dataLoadArguments mp ∈ x.2.calls ∧
        E.getRowDataset args.dataLoadArguments mp = Except.ok d ∧
        E.getIterator d = Except.ok it ∧
        ∀ a1 mp1, Call.getRowDataset a1 mp1 ∈ x.2.calls →
          a1 = args.dataLoadArguments ∧ mp1 = mp := by
  simp only [tryBlock, bind_def, pure_def, bind_call_eq, bind_cout, bind_pure, call_eq] at h
  rcases h with ⟨e, _, rfl⟩ | ⟨args, hparse, h⟩
  · simp [World.log, World.start]
  cases hv : args.trainerArguments.verbose <;>
    simp only [hv, Bool.false_eq_true, if_false, if_true, bind_call_eq, bind_cout, bind_pure,
      call_eq] at h
  · repeat
      rcases h with ⟨e, _, rfl⟩ | ⟨a, ha, h⟩
      · simp [World.log, World.out, World.start, and_assoc, *]
  · repeat
      rcases h with ⟨e, _, rfl⟩ | ⟨a, ha, h⟩
      · simp [World.log, World.out, World.start, and_assoc, *]

set_option maxHeartbeats 1000000 in
theorem calls_after_getRowDataset (E : Env S) (argv : List String)
    (x : Except Exn Unit × World S) (h : tryBlock E argv (World.start S) = x) :
    ∀ a mp, Call.getRowDataset a mp ∈ x.2.calls → ∀ d, E.getRowDataset a mp = Except.ok d →
      ∃ args, E.parse argv = Except.ok args ∧
        Call.makeSortingTreeTrainer args.trainerArguments.lossArguments
          args.sortingTreeTrainerArguments ∈ x.2.calls ∧
        ∀ baseTrainer,
          E.makeSortingTreeTrainer args.trainerArguments.lossArguments
            args.sortingTreeTrainerArguments = Except.ok baseTrainer →
          Call.makeBaggingIncrementalTrainer baseTrainer args.baggingIncrementalTrainerArguments
            ∈ x.2.calls ∧
          ∀ t,
            E.makeBaggingIncrementalTrainer baseTrainer args.baggingIncrementalTrainerArguments
              = Except.ok t →
            Call.getIterator d ∈ x.2.calls ∧
            ∀ it, E.getIterator d = Except.ok it → Call.update t it ∈ x.2.calls := by
  simp only [tryBlock, bind_def, pure_def, bind_call_eq, bind_cout, bind_pure, call_eq] at h
  rcases h with ⟨e, _, rfl⟩ | ⟨args, hparse, h⟩
  · simp [World.log, World.start]
  cases hv : args.trainerArguments.verbose <;>
    simp only [hv, Bool.false_eq_true, if_false, if_true, bind_call_eq, bind_cout, bind_pure,
      call_eq] at h
  · repeat
      rcases h with ⟨e, _, rfl⟩ | ⟨a, ha, h⟩
      · simp [World.log, World.out, World.start, and_assoc, *]
  · repeat
      rcases h with ⟨e, _, rfl⟩ | ⟨a, ha, h⟩
      · simp [World.log, World.out, World.start, and_assoc, *]

set_option maxHeartbeats 1000000 in
theorem calls_of_evaluate (E : Env S) (argv : List String) (x : Except Exn Unit × World S)
    (h : tryBlock E argv (World.start S) = x) :
    (∀ ev it p, Call.evaluate ev it p ∈ x.2.calls →
      (∃ args mp d, E.parse argv = Except.ok args ∧ args.trainerArguments.verbose = true ∧
        E.makeBinaryClassificationEvaluator args.trainerArguments.lossArguments = Except.ok ev ∧
        Call.getRowDataset args.dataLoadArguments mp ∈ x.2.calls ∧
        E.getRowDataset args.dataLoadArguments mp = Except.ok d ∧
        E.getIterator d = Except.ok it) ∧
      (∃ t1, Call.getPredictor t1 ∈ x.2.calls ∧ E.getPredictor t1 = Except.ok p)) ∧
    (∀ ev1, Call.print ev1 ∈ x.2.calls →
      ∃ ev it p, Call.evaluate ev it p ∈ x.2.calls ∧ E.evaluate ev it p = Except.ok ev1) := by
  simp only [tryBlock, bind_def, pure_def, bind_call_eq, bind_cout, bind_pure, call_eq] at h
  rcases h with ⟨e, _, rfl⟩ | ⟨args, hparse, h⟩
  · simp [World.log, World.start]
  cases hv : args.trainerArguments.verbose <;>
    simp only [hv, Bool.false_eq_true, if_false, if_true, bind_call_eq, bind_cout, bind_pure,
      call_eq] at h
  · repeat
      rcases h with ⟨e, _, rfl⟩ | ⟨a, ha, h⟩
      · simp [World.log, World.out, World.start, and_assoc, *]
  · repeat
      rcases h with ⟨e, _, rfl⟩ | ⟨a, ha, h⟩
      · first
        | (simp [World.log, World.out, World.start, and_assoc, *]; done)
        | simp_all [World.log, World.out, World.start, and_assoc]

end Order

/-! ## The handlers -/

section Handlers
variable {S : Sig}

theorem writeParseErrors_eq (errors : List ParseError) (w : World S) :
    writeParseErrors errors w =
      (Except.ok (), { w with cerr := w.cerr ++ linesOf (errors.map ParseError.getMessage) }) := by
  induction errors generalizing w with
  | nil => simp [writeParseErrors, Run.pure, linesOf]
  | cons error rest ih =>
    simp [writeParseErrors, Run.bind, cerrWrite, ih, linesOf, String.append_assoc]

theorem handler_calls (e : Exn) (w : World S) : (handler e w).2.calls = w.calls := by
  cases e <;> simp [handler, coutWrite, cerrWrite, Run.bind, writeParseErrors_eq]

theorem main_of_ok (E : Env S) (argv : List String) (w : World S)
    (h : tryBlock E argv (World.start S) = (Except.ok (), w)) :
    main E argv = (.returned 0, w) := by
  simp [main, h]

theorem main_of_error (E : Env S) (argv : List String) (e : Exn) (w : World S)
    (h : tryBlock E argv (World.start S) = (Except.error e, w)) :
    main E argv = handler e w := by
  simp [main, h]

theorem main_calls (E : Env S) (argv : List String) :
    (main E argv).2.calls = (tryBlock E argv (World.start S)).2.calls := by
  rcases h : tryBlock E argv (World.start S) with ⟨r, w⟩
  cases r with
  | ok u => rw [main_of_ok E argv w h]
  | error e => rw [main_of_error E argv e w h, handler_calls]

theorem tryBlock_ok_tidy (E : Env S) (argv : List String) (w : World S)
    (h : tryBlock E argv (World.start S) = (Except.ok (), w)) :
    Tidy E w.calls ∧ w.cerr = "" := by
  obtain ⟨new, hcalls, hcerr, hres⟩ := tryBlock_sound E argv (World.start S)
  rw [h] at hcalls hcerr hres
  simp only [World.start, List.nil_append] at hcalls hcerr hres
  rw [hcalls]
  exact ⟨hres, hcerr⟩

theorem tryBlock_error_last (E : Env S) (argv : List String) (e : Exn) (w : World S)
    (h : tryBlock E argv (World.start S) = (Except.error e, w)) :
    (∃ pre c, w.calls = pre ++ [c] ∧ Tidy E pre ∧ E.failure c = some e) ∧ w.cerr = "" := by
  obtain ⟨new, hcalls, hcerr, hres⟩ := tryBlock_sound E argv (World.start S)
  rw [h] at hcalls hcerr hres
  simp only [World.start, List.nil_append] at hcalls hcerr hres
  rw [hcalls]
  exact ⟨hres, hcerr⟩

/-- A call of the run that throws is the last one, and its exception leaves the `try`
block. -/
theorem thrown_leaves (E : Env S) (argv : List String) (c : Call S) (e : Exn)
    (hc : c ∈ (main E argv).2.calls) (he : E.failure c = some e) :
    ∃ w, tryBlock E argv (World.start S) = (Except.error e, w) ∧ w.cerr = "" ∧
      w.calls.getLast? = some c := by
  rw [main_calls] at hc
  rcases h : tryBlock E argv (World.start S) with ⟨r, w⟩
  rw [h] at hc
  cases r with
  | ok u =>
    have := (tryBlock_ok_tidy E argv w h).1 c hc
    rw [he] at this
    exact absurd this (by simp)
  | error e0 =>
    obtain ⟨⟨pre, c0, hcalls, hpre, hc0⟩, hcerr⟩ := tryBlock_error_last E argv e0 w h
    simp only [hcalls, List.mem_append, List.mem_singleton] at hc
    rcases hc with hc | hc
    · have := hpre c hc
      rw [he] at this
      exact absurd this (by simp)
    · subst hc
      rw [he] at hc0
      cases hc0
      exact ⟨w, rfl, hcerr, by simp [hcalls]⟩

/-- A run in which no call throws leaves the `try` block at its end. -/
theorem complete_of_tidy (E : Env S) (argv : List String)
    (h : ∀ c ∈ (main E argv).2.calls, E.failure c = none) :
    ∃ w, tryBlock E argv (World.start S) = (Except.ok (), w) ∧ main E argv = (.returned 0, w) := by
  rw [main_calls] at h
  rcases hx : tryBlock E argv (World.start S) with ⟨r, w⟩
  rw [hx] at h
  cases r with
  | ok u => exact ⟨w, rfl, main_of_ok E argv w hx⟩
  | error e =>
    obtain ⟨⟨pre, c, hcalls, _, hc⟩, _⟩ := tryBlock_error_last E argv e w hx
    have := h c (by simp [hcalls])
    rw [hc] at this
    exact absurd this (by simp)

/-- A call of the run that throws a runtime error is the last call, and `main`
returns 1. -/
theorem returns_one_of_runtime_error (E : Env S) (argv : List String) (c : Call S)
    (what : String) (hc : c ∈ (main E argv).2.calls)
    (he : E.failure c = some (.runtimeError what)) :
    (main E argv).1 = .returned 1 ∧ (main E argv).2.calls.getLast? = some c := by
  obtain ⟨w, hx, -, hlast⟩ := thrown_leaves E argv c _ hc he
  rw [main_of_error E argv _ w hx]
  exact ⟨rfl, by rw [handler_calls]; exact hlast⟩

end Handlers

/-! ## Runs that bind the same values -/

section Agree
variable {S : Sig}

/-- Runs that build the coordinate list from the same model and options get the same
list. -/
theorem Bindings.Ok.coordinates_eq {E1 E2 : Env S} {argv1 argv2 : List String}
    {b1 b2 : Bindings S} (h1 : b1.Ok E1 argv1) (h2 : b2.Ok E2 argv2)
    (hdim : E1.parsedDataDimension = E2.parsedDataDimension)
    (hbuild : E1.buildCoordinateList = E2.buildCoordinateList)
    (hdata : b1.args.dataLoadArguments = b2.args.dataLoadArguments)
    (hlist : b1.args.mapLoadArguments.coordinateListString =
      b2.args.mapLoadArguments.coordinateListString)
    (hmodel : b1.model = b2.model) :
    b1.outputCoordinateList = b2.outputCoordinateList := by
  have h := h1.outputCoordinateList
  rw [hdim, hbuild, hdata, hlist, hmodel, h2.outputCoordinateList] at h
  exact (Except.ok.inj h).symm

/-- Runs that train with the same trainer code on the same dataset, from the same
options, and merge into the same model at the same coordinates, get the same trainer,
predictor and merged model. -/
theorem Bindings.Ok.merged_eq {E1 E2 : Env S} {argv1 argv2 : List String}
    {b1 b2 : Bindings S} (h1 : b1.Ok E1 argv1) (h2 : b2.Ok E2 argv2)
    (hbase : E1.makeSortingTreeTrainer = E2.makeSortingTreeTrainer)
    (hbag : E1.makeBaggingIncrementalTrainer = E2.makeBaggingIncrementalTrainer)
    (hiter : E1.getIterator = E2.getIterator)
    (hupdate : E1.update = E2.update)
    (hget : E1.getPredictor = E2.getPredictor)
    (hadd : E1.addToModel = E2.addToModel)
    (hloss : b1.args.trainerArguments.lossArguments = b2.args.trainerArguments.lossArguments)
    (htree : b1.args.sortingTreeTrainerArguments = b2.args.sortingTreeTrainerArguments)
    (hbagging : b1.args.baggingIncrementalTrainerArguments =
      b2.args.baggingIncrementalTrainerArguments)
    (hmodel : b1.model = b2.model)
    (hcoord : b1.outputCoordinateList = b2.outputCoordinateList)
    (hdataset : b1.rowDataset = b2.rowDataset) :
    b1.trainer = b2.trainer ∧ b1.trainSetIterator = b2.trainSetIterator ∧
      b1.trained = b2.trained ∧ b1.predictor = b2.predictor ∧ b1.merged = b2.merged := by
  have hb : b1.baseTrainer = b2.baseTrainer := by
    have h := h1.baseTrainer
    rw [hbase, hloss, htree, h2.baseTrainer] at h
    exact (Except.ok.inj h).symm
  have ht : b1.trainer = b2.trainer := by
    have h := h1.trainer
    rw [hbag, hb, hbagging, h2.trainer] at h
    exact (Except.ok.inj h).symm
  have hi : b1.trainSetIterator = b2.trainSetIterator := by
    have h := h1.trainSetIterator
    rw [hiter, hdataset, h2.trainSetIterator] at h
    exact (Except.ok.inj h).symm
  have hu : b1.trained = b2.trained := by
    have h := h1.trained
    rw [hupdate, ht, hi, h2.trained] at h
    exact (Except.ok.inj h).symm
  have hp : b1.predictor = b2.predictor := by
    have h := h1.predictor
    rw [hget, hu, h2.predictor] at h
    exact (Except.ok.inj h).symm
  have hm : b1.merged = b2.merged := by
    have h := h1.merged
    rw [hadd, hp, hmodel, hcoord, h2.merged] at h
    exact (Except.ok.inj h).symm
  exact ⟨ht, hi, hu, hp, hm⟩

/-- The parsed arguments of `E.withVerbose verbose`. -/
theorem withVerbose_parse (E : Env S) (verbose : Bool) (argv : List String)
    (args : Arguments S) (h : (E.withVerbose verbose).parse argv = Except.ok args) :
    ∃ args0, E.parse argv = Except.ok args0 ∧ args = args0.setVerbose verbose := by
  simp only [Env.withVerbose] at h
  cases hp : E.parse argv with
  | error e => simp [hp] at h
  | ok args0 =>
    simp only [hp] at h
    exact ⟨args0, rfl, (Except.ok.inj h).symm⟩

/-- The quiet and the verbose run on one command line bind the same values from the
output stream on. -/
theorem withVerbose_agree (E : Env S) (argv : List String) (b1 b2 : Bindings S)
    (h1 : b1.Ok (E.withVerbose false) argv) (h2 : b2.Ok (E.withVerbose true) argv) :
    b1.outStream = b2.outStream ∧ b1.model = b2.model ∧
      b1.outputCoordinateList = b2.outputCoordinateList ∧ b1.rowDataset = b2.rowDataset ∧
      b1.trainer = b2.trainer ∧ b1.trainSetIterator = b2.trainSetIterator ∧
      b1.trained = b2.trained ∧ b1.predictor = b2.predictor ∧ b1.merged = b2.merged := by
  obtain ⟨a1, hp1, ha1⟩ := withVerbose_parse E false argv b1.args h1.parse
  obtain ⟨a2, hp2, ha2⟩ := withVerbose_parse E true argv b2.args h2.parse
  rw [hp1] at hp2
  cases hp2
  have ho : b1.outStream = b2.outStream := by
    have h := h1.outStream
    have h' := h2.outStream
    rw [ha1] at h
    rw [ha2] at h'
    simp only [Env.withVerbose, Arguments.setVerbose] at h h'
    rw [h] at h'
    exact Except.ok.inj h'
  have hm : b1.model = b2.model := by
    have h := h1.model
    have h' := h2.model
    rw [ha1] at h
    rw [ha2] at h'
    simp only [Env.withVerbose, Arguments.setVerbose] at h h'
    rw [h] at h'
    exact Except.ok.inj h'
  have hc : b1.outputCoordinateList = b2.outputCoordinateList :=
    h1.coordinates_eq h2 rfl rfl (by rw [ha1, ha2]; rfl) (by rw [ha1, ha2]; rfl) hm
  have hmap : b1.map = b2.map := by
    have h := h1.map
    have h' := h2.map
    rw [hm, hc] at h
    simp only [Env.withVerbose] at h h'
    rw [h] at h'
    exact Except.ok.inj h'
  have hd : b1.rowDataset = b2.rowDataset := by
    have h := h1.rowDataset
    have h' := h2.rowDataset
    rw [ha1, hmap] at h
    rw [ha2] at h'
    simp only [Env.withVerbose, Arguments.setVerbose] at h h'
    rw [h] at h'
    exact Except.ok.inj h'
  obtain ⟨ht, hi, hu, hp, hmg⟩ := h1.merged_eq h2 rfl rfl rfl rfl rfl rfl
    (by rw [ha1, ha2]; rfl) (by rw [ha1, ha2]; rfl) (by rw [ha1, ha2]; rfl) hm hc hd
  exact ⟨ho, hm, hc, hd, ht, hi, hu, hp, hmg⟩

/-- The quiet and the verbose run of one command line, when both complete, make the
same `AddToModel` call and the same `Save` call; only the verbose one calls `Evaluate`. -/
theorem quiet_verbose_calls (E : Env S) (argv : List String) :
    (∀ c ∈ (main (E.withVerbose false) argv).2.calls, (E.withVerbose false).failure c = none) →
     (∀ c ∈ (main (E.withVerbose true) argv).2.calls, (E.withVerbose true).failure c = none) →
      ∃ (b : Bindings S) (v : EvalBindings S),
        b.Ok (E.withVerbose true) argv ∧ v.Ok (E.withVerbose true) argv b ∧
        (main (E.withVerbose false) argv).2.calls.filter Call.isAddToModel =
          [Call.addToModel b.predictor b.model b.outputCoordinateList] ∧
        (main (E.withVerbose true) argv).2.calls.filter Call.isAddToModel =
          [Call.addToModel b.predictor b.model b.outputCoordinateList] ∧
        (main (E.withVerbose false) argv).2.calls.filter Call.isSave =
          [Call.save b.merged b.outStream] ∧
        (main (E.withVerbose true) argv).2.calls.filter Call.isSave =
          [Call.save b.merged b.outStream] ∧
        (main (E.withVerbose false) argv).2.calls.filter Call.isEvaluate = [] ∧
        (main (E.withVerbose true) argv).2.calls.filter Call.isEvaluate =
          [Call.evaluate v.evaluator v.evaluationIterator b.predictor] ∧
        ∃ pre post, (main (E.withVerbose true) argv).2.calls =
          pre ++ [Call.getIterator b.rowDataset, Call.update b.trainer b.trainSetIterator,
            Call.getPredictor b.trained,
            Call.makeBinaryClassificationEvaluator b.args.trainerArguments.lossArguments,
            Call.getIterator b.rowDataset,
            Call.evaluate v.evaluator v.evaluationIterator b.predictor] ++ post := by
  intro hq hv
  obtain ⟨w1, hx1, hmain1⟩ := complete_of_tidy (E.withVerbose false) argv hq
  obtain ⟨w2, hx2, hmain2⟩ := complete_of_tidy (E.withVerbose true) argv hv
  obtain ⟨b1, hb1, hw1⟩ := tryBlock_complete (E.withVerbose false) argv w1 hx1
  obtain ⟨b2, hb2, hw2⟩ := tryBlock_complete (E.withVerbose true) argv w2 hx2
  obtain ⟨a1, -, ha1⟩ := withVerbose_parse E false argv b1.args hb1.parse
  obtain ⟨a2, -, ha2⟩ := withVerbose_parse E true argv b2.args hb2.parse
  have hv1 : b1.args.trainerArguments.verbose = false := by rw [ha1]; rfl
  have hv2 : b2.args.trainerArguments.verbose = true := by rw [ha2]; rfl
  rcases hw1 with ⟨-, rfl⟩ | ⟨h, -⟩
  swap
  · rw [hv1] at h; cases h
  rcases hw2 with ⟨h, -⟩ | ⟨-, v, hv2ok, rfl⟩
  · rw [hv2] at h; cases h
  obtain ⟨ho, hm, hc, hd, ht, hi, hu, hp, hmg⟩ := withVerbose_agree E argv b1 b2 hb1 hb2
  refine ⟨b2, v, hb2, hv2ok, ?_, ?_, ?_, ?_, ?_, ?_, ?_⟩
  · rw [hmain1, ← hp, ← hm, ← hc]
    simp [Bindings.quietWorld, Bindings.trainingCalls, Bindings.finalCalls, Call.isAddToModel]
  · rw [hmain2]
    simp [Bindings.verboseWorld, Bindings.trainingCalls, Bindings.finalCalls,
      EvalBindings.calls, Call.isAddToModel]
  · rw [hmain1, ← hmg, ← ho]
    simp [Bindings.quietWorld, Bindings.trainingCalls, Bindings.finalCalls, Call.isSave]
  · rw [hmain2]
    simp [Bindings.verboseWorld, Bindings.trainingCalls, Bindings.finalCalls,
      EvalBindings.calls, Call.isSave]
  · rw [hmain1]
    simp [Bindings.quietWorld, Bindings.trainingCalls, Bindings.finalCalls, Call.isEvaluate]
  · rw [hmain2]
    simp [Bindings.verboseWorld, Bindings.trainingCalls, Bindings.finalCalls,
      EvalBindings.calls, Call.isEvaluate]
  · rw [hmain2]
    exact ⟨Call.parse argv :: Call.getCurrentValuesString argv :: (b2.trainingCalls E).take 7,
      Call.print v.evaluated :: b2.finalCalls, rfl⟩


end Agree

/-! ## The two readings of the driver -/

section Ref
variable {S : Sig}

theorem tryBlockRef_eq (R : RefEnv S) (argv : List String)
    (hp : ∀ ev it p, R.predictorAfterEvaluate ev it p = p) :
    tryBlockRef R argv = tryBlock R.toEnv argv := by
  simp only [tryBlockRef, tryBlock, bind_def, pure_def, hp]


theorem mainRef_eq (R : RefEnv S) (argv : List String)
    (hp : ∀ ev it p, R.predictorAfterEvaluate ev it p = p) :
    mainRef R argv = main R.toEnv argv := by
  unfold mainRef main
  rw [tryBlockRef_eq R argv hp]

theorem evaluatePass_spec (N : LossNumerics) (it : List Example) (s : EvaluationState) :
    (evaluatePass N it s).predictor = s.predictor ∧ (evaluatePass N it s).iterator = [] := by
  induction it generalizing s with
  | nil => exact ⟨rfl, rfl⟩
  | cons x rest ih =>
    simp only [evaluatePass]
    exact ih _

theorem readAll_eq (it : List Example) : readAll it = (it, []) := by
  induction it with
  | nil => rfl
  | cons x rest ih => simp [readAll, ih]

end Ref

/-! ## The trainers of the specification -/

section SpecModel

theorem update_nil (L : Learner) (t : BaggingIncrementalTrainer) :
    update L t [] = Except.error (.runtimeError "empty example store") := rfl

theorem makeSortingTreeTrainer_error (loss : LossFunction) (config : InducerConfig)
    (h : config.maxDepth ≤ 0) :
    makeSortingTreeTrainer loss config =
      Except.error (.runtimeError "invalid configuration: depth") := by
  simp [makeSortingTreeTrainer, h]

theorem makeBaggingIncrementalTrainer_error (baseTrainer : SortingTreeTrainer)
    (config : BaggingConfig) (h : config.numTreesPerUpdate = 0 ∨ config.sampleSize = some 0) :
    makeBaggingIncrementalTrainer baseTrainer config =
      Except.error (.runtimeError "invalid configuration: trees or sample size") := by
  simp [makeBaggingIncrementalTrainer, h]

theorem makeSortingTreeTrainer_cases (loss : LossFunction) (config : InducerConfig) :
    (∃ what, makeSortingTreeTrainer loss config = Except.error (.runtimeError what)) ∨
    (0 < config.maxDepth ∧ makeSortingTreeTrainer loss config = Except.ok ⟨loss, config⟩) := by
  by_cases h : config.maxDepth ≤ 0
  · exact Or.inl ⟨_, makeSortingTreeTrainer_error loss config h⟩
  · exact Or.inr ⟨by omega, by simp [makeSortingTreeTrainer, h]⟩

theorem makeBaggingIncrementalTrainer_cases (baseTrainer : SortingTreeTrainer)
    (config : BaggingConfig) :
    (∃ what, makeBaggingIncrementalTrainer baseTrainer config =
        Except.error (.runtimeError what)) ∨
    (config.numTreesPerUpdate ≠ 0 ∧ config.sampleSize ≠ some 0 ∧
      makeBaggingIncrementalTrainer baseTrainer config =
        Except.ok ⟨baseTrainer, config, [], config.seed⟩) := by
  by_cases h : config.numTreesPerUpdate = 0 ∨ config.sampleSize = some 0
  · exact Or.inl ⟨_, makeBaggingIncrementalTrainer_error baseTrainer config h⟩
  · refine Or.inr ⟨fun h1 => h (Or.inl h1), fun h1 => h (Or.inr h1), ?_⟩
    simp [makeBaggingIncrementalTrainer, h]




theorem growEnsemble_spec (L : Learner) (store : List Example) (count : Nat)
    (t : BaggingIncrementalTrainer) :
    (growEnsemble L store count t).config = t.config ∧
    (growEnsemble L store count t).baseTrainer = t.baseTrainer ∧
    ∃ added, (growEnsemble L store count t).ensemble = t.ensemble ++ added ∧
      added.length = count := by
  induction count generalizing t with
  | zero => exact ⟨rfl, rfl, [], by simp [growEnsemble], rfl⟩
  | succ n ih =>
    obtain ⟨hc, hb, added, he, hl⟩ := ih
      { t with
        ensemble := t.ensemble ++
          [(L.train t.baseTrainer.loss t.baseTrainer.config store
            (drawSample L store.length (t.config.sampleSize.getD store.length) t.generator).1,
            t.config.treeWeight)]
        generator :=
          (drawSample L store.length (t.config.sampleSize.getD store.length) t.generator).2 }
    refine ⟨hc, hb,
      (L.train t.baseTrainer.loss t.baseTrainer.config store
        (drawSample L store.length (t.config.sampleSize.getD store.length) t.generator).1,
        t.config.treeWeight) :: added, ?_, by simp [hl]⟩
    simp only [growEnsemble]
    rw [he]
    simp

theorem update_spec (L : Learner) (t t1 : BaggingIncrementalTrainer) (store : List Example)
    (h : update L t store = Except.ok t1) :
    store ≠ [] ∧ t1.config = t.config ∧ t1.baseTrainer = t.baseTrainer ∧
    ∃ added, t1.ensemble = t.ensemble ++ added ∧ added.length = t.config.numTreesPerUpdate := by
  unfold update at h
  split at h
  · cases h
  · rename_i hne
    cases h
    obtain ⟨hc, hb, added, he, hl⟩ := growEnsemble_spec L store t.config.numTreesPerUpdate t
    refine ⟨?_, hc, hb, added, he, hl⟩
    intro h0
    subst h0
    simp at hne

theorem update_ok_of_ne_nil (L : Learner) (t : BaggingIncrementalTrainer) (store : List Example)
    (h : store ≠ []) : ∃ t1, update L t store = Except.ok t1 := by
  unfold update
  cases store with
  | nil => exact absurd rfl h
  | cons e rest => exact ⟨_, rfl⟩

theorem updates_spec (L : Learner) (stores : List (List Example))
    (t tk : BaggingIncrementalTrainer) (h : updates L t stores = Except.ok tk) :
    tk.config = t.config ∧
    ∃ added, tk.ensemble = t.ensemble ++ added ∧
      added.length = stores.length * t.config.numTreesPerUpdate := by
  induction stores generalizing t with
  | nil =>
    simp only [updates] at h
    cases h
    exact ⟨rfl, [], by simp, by simp⟩
  | cons store rest ih =>
    simp only [updates] at h
    cases hu : update L t store with
    | error e => rw [hu] at h; cases h
    | ok t1 =>
      rw [hu] at h
      simp only at h
      obtain ⟨-, hc1, -, added1, he1, hl1⟩ := update_spec L t t1 store hu
      obtain ⟨hc, added, he, hl⟩ := ih t1 h
      refine ⟨hc.trans hc1, added1 ++ added, by rw [he, he1, List.append_assoc], ?_⟩
      rw [List.length_append, hl, hl1, hc1, List.length_cons]
      ring

theorem updates_ok_of_ne_nil (L : Learner) (stores : List (List Example))
    (t : BaggingIncrementalTrainer) (h : ∀ s ∈ stores, s ≠ []) :
    ∃ tk, updates L t stores = Except.ok tk := by
  induction stores generalizing t with
  | nil => exact ⟨t, rfl⟩
  | cons store rest ih =>
    obtain ⟨t1, h1⟩ := update_ok_of_ne_nil L t store (h store (by simp))
    obtain ⟨tk, hk⟩ := ih t1 (fun s hs => h s (by simp [hs]))
    exact ⟨tk, by simp only [updates, h1, hk]⟩

theorem makeBaggingIncrementalTrainer_ok (baseTrainer : SortingTreeTrainer)
    (config : BaggingConfig) (t : BaggingIncrementalTrainer)
    (h : makeBaggingIncrementalTrainer baseTrainer config = Except.ok t) :
    t = ⟨baseTrainer, config, [], config.seed⟩ := by
  rcases makeBaggingIncrementalTrainer_cases baseTrainer config with ⟨what, herr⟩ | ⟨-, -, hok⟩
  · rw [herr] at h; cases h
  · rw [hok] at h; cases h; rfl

/-- The trees `Update` adds depend on the configuration, the base trainer, the state of
the generator and the store, not on the trees already in the ensemble. -/
theorem growEnsemble_frame (L : Learner) (store : List Example) (count : Nat)
    (t1 t2 : BaggingIncrementalTrainer) (hc : t1.config = t2.config)
    (hb : t1.baseTrainer = t2.baseTrainer) (hg : t1.generator = t2.generator) :
    ∃ added, (growEnsemble L store count t1).ensemble = t1.ensemble ++ added ∧
      (growEnsemble L store count t2).ensemble = t2.ensemble ++ added ∧
      (growEnsemble L store count t1).generator = (growEnsemble L store count t2).generator := by
  induction count generalizing t1 t2 with
  | zero => exact ⟨[], by simp [growEnsemble], by simp [growEnsemble], hg⟩
  | succ n ih =>
    simp only [growEnsemble]
    obtain ⟨added, h1, h2, h3⟩ := ih
      { t1 with
        ensemble := t1.ensemble ++
          [(L.train t1.baseTrainer.loss t1.baseTrainer.config store
            (drawSample L store.length (t1.config.sampleSize.getD store.length) t1.generator).1,
            t1.config.treeWeight)]
        generator :=
          (drawSample L store.length (t1.config.sampleSize.getD store.length) t1.generator).2 }
      { t2 with
        ensemble := t2.ensemble ++
          [(L.train t2.baseTrainer.loss t2.baseTrainer.config store
            (drawSample L store.length (t2.config.sampleSize.getD store.length) t2.generator).1,
            t2.config.treeWeight)]
        generator :=
          (drawSample L store.length (t2.config.sampleSize.getD store.length) t2.generator).2 }
      hc hb (by simp only [hc, hg])
    refine ⟨(L.train t1.baseTrainer.loss t1.baseTrainer.config store
        (drawSample L store.length (t1.config.sampleSize.getD store.length) t1.generator).1,
        t1.config.treeWeight) :: added, ?_, ?_, h3⟩
    · rw [h1]; simp
    · rw [h2, hb, hc, hg]; simp

theorem updates_frame (L : Learner) (stores : List (List Example))
    (t1 t2 r1 r2 : BaggingIncrementalTrainer) (hc : t1.config = t2.config)
    (hb : t1.baseTrainer = t2.baseTrainer) (hg : t1.generator = t2.generator)
    (h1 : updates L t1 stores = Except.ok r1) (h2 : updates L t2 stores = Except.ok r2) :
    ∃ added, r1.ensemble = t1.ensemble ++ added ∧ r2.ensemble = t2.ensemble ++ added ∧
      r1.generator = r2.generator := by
  induction stores generalizing t1 t2 with
  | nil =>
    simp only [updates] at h1 h2
    cases h1
    cases h2
    exact ⟨[], by simp, by simp, hg⟩
  | cons store rest ih =>
    simp only [updates] at h1 h2
    cases hu1 : update L t1 store with
    | error e => rw [hu1] at h1; cases h1
    | ok s1 =>
      cases hu2 : update L t2 store with
      | error e => rw [hu2] at h2; cases h2
      | ok s2 =>
        rw [hu1] at h1
        rw [hu2] at h2
        simp only at h1 h2
        obtain ⟨-, hc1, hb1, -⟩ := update_spec L t1 s1 store hu1
        obtain ⟨hne, hc2, hb2, -⟩ := update_spec L t2 s2 store hu2
        obtain ⟨added0, he1, he2, hg0⟩ :=
          growEnsemble_frame L store t1.config.numTreesPerUpdate t1 t2 hc hb hg
        have hs1 : s1 = growEnsemble L store t1.config.numTreesPerUpdate t1 := by
          unfold update at hu1
          split at hu1
          · cases hu1
          · exact (Except.ok.inj hu1).symm
        have hs2 : s2 = growEnsemble L store t1.config.numTreesPerUpdate t2 := by
          unfold update at hu2
          split at hu2
          · cases hu2
          · rw [hc]; exact (Except.ok.inj hu2).symm
        obtain ⟨added, hr1, hr2, hg1⟩ := ih s1 s2 (by rw [hc1, hc2, hc]) (by rw [hb1, hb2, hb])
          (by rw [hs1, hs2]; exact hg0) h1 h2
        refine ⟨added0 ++ added, ?_, ?_, hg1⟩
        · rw [hr1, hs1, he1, List.append_assoc]
        · rw [hr2, hs2, he2, List.append_assoc]

theorem stateAfter_add_one (L : Learner) (seed offset : Nat) :
    L.stateAfter seed (offset + 1) = (L.next (L.stateAfter seed offset)).2 := rfl

theorem drawSample_eq (L : Learner) (seed n size offset : Nat) :
    drawSample L n size (L.stateAfter seed offset) =
      (sampleAt L seed offset n size, L.stateAfter seed (offset + size)) := by
  induction size generalizing offset with
  | zero => simp [drawSample, sampleAt]
  | succ k ih =>
    simp only [drawSample]
    rw [← stateAfter_add_one, ih (offset + 1)]
    simp only [sampleAt, List.range_succ_eq_map, List.map_cons, List.map_map, Learner.drawn,
      Nat.add_zero]
    refine Prod.ext ?_ ?_
    · simp only
      congr 1
      apply List.map_congr_left
      intro q _
      simp only [Function.comp]
      rw [show offset + 1 + q = offset + (q + 1) by omega]
    · simp only
      rw [show offset + 1 + k = offset + (k + 1) by omega]

theorem growEnsemble_eq (L : Learner) (store : List Example) (count : Nat)
    (t : BaggingIncrementalTrainer) (offset : Nat)
    (hg : t.generator = L.stateAfter t.config.seed offset) :
    (growEnsemble L store count t).ensemble =
      t.ensemble ++ (List.range count).map (fun r =>
        (L.train t.baseTrainer.loss t.baseTrainer.config store
          (sampleAt L t.config.seed (offset + r * t.config.sizeOn store) store.length
            (t.config.sizeOn store)),
          t.config.treeWeight)) ∧
    (growEnsemble L store count t).generator =
      L.stateAfter t.config.seed (offset + count * t.config.sizeOn store) := by
  induction count generalizing t offset with
  | zero => simp [growEnsemble, hg]
  | succ k ih =>
    simp only [growEnsemble]
    have hd := drawSample_eq L t.config.seed store.length (t.config.sizeOn store) offset
    rw [← hg] at hd
    have hd' : drawSample L store.length (t.config.sampleSize.getD store.length) t.generator =
        (sampleAt L t.config.seed offset store.length (t.config.sizeOn store),
          L.stateAfter t.config.seed (offset + t.config.sizeOn store)) := hd
    rw [hd']
    obtain ⟨h1, h2⟩ := ih
      { t with
        ensemble := t.ensemble ++
          [(L.train t.baseTrainer.loss t.baseTrainer.config store
            (sampleAt L t.config.seed offset store.length (t.config.sizeOn store)),
            t.config.treeWeight)]
        generator := L.stateAfter t.config.seed (offset + t.config.sizeOn store) }
      (offset + t.config.sizeOn store) rfl
    refine ⟨?_, ?_⟩
    · rw [h1]
      simp only [List.range_succ_eq_map, List.map_cons, List.map_map, List.append_assoc,
        List.singleton_append, Nat.zero_mul, Nat.add_zero]
      congr 2
      apply List.map_congr_left
      intro r _
      simp only [Function.comp]
      rw [show offset + t.config.sizeOn store + r * t.config.sizeOn store =
        offset + (r + 1) * t.config.sizeOn store by ring]
    · rw [h2]
      simp only
      rw [show offset + t.config.sizeOn store + k * t.config.sizeOn store =
        offset + (k + 1) * t.config.sizeOn store by ring]

theorem updates_eq (L : Learner) (stores : List (List Example))
    (t r : BaggingIncrementalTrainer) (offset : Nat)
    (hg : t.generator = L.stateAfter t.config.seed offset)
    (h : updates L t stores = Except.ok r) :
    r.ensemble = t.ensemble ++ ensembleAt L t.baseTrainer t.config offset stores ∧
    r.generator = L.stateAfter t.config.seed (offset + drawsOf t.config stores) := by
  induction stores generalizing t offset with
  | nil =>
    simp only [updates] at h
    cases h
    simp [ensembleAt, drawsOf, hg]
  | cons store rest ih =>
    simp only [updates] at h
    cases hu : update L t store with
    | error e => rw [hu] at h; cases h
    | ok t1 =>
      rw [hu] at h
      simp only at h
      obtain ⟨-, hc1, hb1, -⟩ := update_spec L t t1 store hu
      have ht1 : t1 = growEnsemble L store t.config.numTreesPerUpdate t := by
        unfold update at hu
        split at hu
        · cases hu
        · exact (Except.ok.inj hu).symm
      obtain ⟨he, hgen⟩ := growEnsemble_eq L store t.config.numTreesPerUpdate t offset hg
      obtain ⟨h1, h2⟩ := ih t1 (offset + t.config.numTreesPerUpdate * t.config.sizeOn store)
        (by rw [hc1, ht1, hgen]) h
      refine ⟨?_, ?_⟩
      · rw [h1, hc1, hb1, ht1, he]
        simp [ensembleAt, treesAt]
      · rw [h2, hc1]
        simp only [drawsOf]
        rw [Nat.add_assoc]

theorem makeSortingTreeTrainer_ok (loss : LossFunction) (config : InducerConfig)
    (t : SortingTreeTrainer) (h : makeSortingTreeTrainer loss config = Except.ok t) :
    t = ⟨loss, config⟩ := by
  rcases makeSortingTreeTrainer_cases loss config with ⟨what, herr⟩ | ⟨-, hok⟩
  · rw [herr] at h; cases h
  · rw [hok] at h; cases h; rfl

/-- The ensemble of a trainer constructed from `config` after a sequence of `Update`
calls is the one the seed, the configuration and the call sequence determine. -/
theorem updates_closed (L : Learner) (baseTrainer : SortingTreeTrainer) (config : BaggingConfig)
    (stores : List (List Example)) (t0 r : BaggingIncrementalTrainer)
    (h0 : makeBaggingIncrementalTrainer baseTrainer config = Except.ok t0)
    (h : updates L t0 stores = Except.ok r) :
    r.ensemble = ensembleAt L baseTrainer config 0 stores ∧
    r.generator = L.stateAfter config.seed (drawsOf config stores) := by
  have ht0 := makeBaggingIncrementalTrainer_ok baseTrainer config t0 h0
  subst ht0
  obtain ⟨h1, h2⟩ := updates_eq L stores _ r 0 rfl h
  refine ⟨by simpa using h1, by simpa using h2⟩

/-- The predictor a completed run on the trainers of the specification merges is the
ensemble determined by the parsed options and the loaded dataset. -/
theorem Bindings.Ok.predictor_closed {B : Sig} {L : Learner} {X : Env (specSig B)} {argv : List String}
    {b : Bindings (specSig B)} (hb : b.Ok (specEnv L X) argv) :
    b.predictor =
      ensembleAt L ⟨b.args.trainerArguments.lossArguments, b.args.sortingTreeTrainerArguments⟩
        b.args.baggingIncrementalTrainerArguments 0 [b.rowDataset] := by
  have h1 : makeSortingTreeTrainer b.args.trainerArguments.lossArguments
      b.args.sortingTreeTrainerArguments = Except.ok b.baseTrainer := hb.baseTrainer
  have h2 : makeBaggingIncrementalTrainer b.baseTrainer
      b.args.baggingIncrementalTrainerArguments = Except.ok b.trainer := hb.trainer
  have h3 : Except.ok b.rowDataset = (Except.ok b.trainSetIterator : Except Exn (List Example)) :=
    hb.trainSetIterator
  have h4 : update L b.trainer b.trainSetIterator = Except.ok b.trained := hb.trained
  have h5 : getPredictor b.trained = Except.ok b.predictor := hb.predictor
  have hbase := makeSortingTreeTrainer_ok _ _ _ h1
  have hit : b.rowDataset = b.trainSetIterator := Except.ok.inj h3
  have hups : updates L b.trainer [b.rowDataset] = Except.ok b.trained := by
    simp only [updates, hit, h4]
  obtain ⟨he, -⟩ := updates_closed L b.baseTrainer _ [b.rowDataset] b.trainer b.trained h2 hups
  have h6 : b.trained.ensemble = b.predictor := Except.ok.inj h5
  rw [← h6, he, hbase]

end SpecModel

/-! ## The claims on the driver -/

section Driver
variable {S : Sig}

/-- C1: in a run of `main` in which no call throws, the model given to `Save` is the
loaded model after `AddToModel`, at the output coordinate list, of the predictor that
`GetPredictor` returned for the bagging trainer built over the sorting tree trainer; that
trainer received exactly one `Update`, on the iterator obtained from the loaded row
dataset by the call just before; `Save` is called once and is the last call, right after
`AddToModel`; `main` returns 0. -/
theorem main_saves_trained_model (E : Env S) (argv : List String)
    (h : ∀ c ∈ (main E argv).2.calls, E.failure c = none) :
    ∃ b : Bindings S, b.Ok E argv ∧ (main E argv).1 = .returned 0 ∧
      (main E argv).2.calls.filter Call.isSave = [Call.save b.merged b.outStream] ∧
      (main E argv).2.calls.getLast? = some (Call.save b.merged b.outStream) ∧
      (main E argv).2.calls.filter Call.isUpdate = [Call.update b.trainer b.trainSetIterator] ∧
      (∃ pre post, (main E argv).2.calls =
        pre ++ [Call.getIterator b.rowDataset, Call.update b.trainer b.trainSetIterator] ++ post) ∧
      (∃ pre, (main E argv).2.calls =
        pre ++ [Call.addToModel b.predictor b.model b.outputCoordinateList,
          Call.save b.merged b.outStream]) := by
  obtain ⟨w, hx, hmain⟩ := complete_of_tidy E argv h
  obtain ⟨b, hb, ⟨-, rfl⟩ | ⟨-, v, -, rfl⟩⟩ := tryBlock_complete E argv w hx
  · refine ⟨b, hb, by rw [hmain], ?_, ?_, ?_, ?_, ?_⟩ <;> rw [hmain]
    · simp [Bindings.quietWorld, Bindings.trainingCalls, Bindings.finalCalls, Call.isSave]
    · simp [Bindings.quietWorld, Bindings.trainingCalls, Bindings.finalCalls]
    · simp [Bindings.quietWorld, Bindings.trainingCalls, Bindings.finalCalls, Call.isUpdate]
    · exact ⟨Call.parse argv :: (b.trainingCalls E).take 7,
        Call.getPredictor b.trained :: b.finalCalls, rfl⟩
    · exact ⟨Call.parse argv :: b.trainingCalls E, rfl⟩
  · refine ⟨b, hb, by rw [hmain], ?_, ?_, ?_, ?_, ?_⟩ <;> rw [hmain]
    · simp [Bindings.verboseWorld, Bindings.trainingCalls, Bindings.finalCalls,
        EvalBindings.calls, Call.isSave]
    · simp [Bindings.verboseWorld, Bindings.trainingCalls, Bindings.finalCalls,
        EvalBindings.calls]
    · simp [Bindings.verboseWorld, Bindings.trainingCalls, Bindings.finalCalls,
        EvalBindings.calls, Call.isUpdate]
    · exact ⟨Call.parse argv :: Call.getCurrentValuesString argv :: (b.trainingCalls E).take 7,
        Call.getPredictor b.trained :: (v.calls b ++ b.finalCalls), rfl⟩
    · exact ⟨Call.parse argv :: Call.getCurrentValuesString argv ::
        (b.trainingCalls E ++ v.calls b), by
          simp [Bindings.verboseWorld, Bindings.finalCalls]⟩

theorem main_saves_trained_model_witness :
    ∃ b : Bindings demoSig, b.Ok (demoEnv true) [] ∧ (main (demoEnv true) []).1 = .returned 0 ∧
      (main (demoEnv true) []).2.calls.filter Call.isSave = [Call.save b.merged b.outStream] ∧
      (main (demoEnv true) []).2.calls.getLast? = some (Call.save b.merged b.outStream) ∧
      (main (demoEnv true) []).2.calls.filter Call.isUpdate =
        [Call.update b.trainer b.trainSetIterator] ∧
      (∃ pre post, (main (demoEnv true) []).2.calls =
        pre ++ [Call.getIterator b.rowDataset, Call.update b.trainer b.trainSetIterator] ++ post) ∧
      (∃ pre, (main (demoEnv true) []).2.calls =
        pre ++ [Call.addToModel b.predictor b.model b.outputCoordinateList,
          Call.save b.merged b.outStream]) :=
  main_saves_trained_model (demoEnv true) [] (by decide)

/-- C2: errors are signalled distinctly from success.  If a call made by `main` throws and
the exception is not the help request of the parser, `main` does not return 0; if it is
a runtime error, `main` returns 1 and standard error holds `runtime error: ` followed by
its message and a newline.  The `try` block is left at its end exactly when no call
threw, and `main` then returns 0. -/
theorem main_signals_errors (E : Env S) (argv : List String) :
    (∀ c ∈ (main E argv).2.calls, ∀ e, E.failure c = some e → e.isPrintHelp = false →
        (main E argv).1 ≠ .returned 0) ∧
    (∀ c ∈ (main E argv).2.calls, ∀ what, E.failure c = some (.runtimeError what) →
        (main E argv).1 = .returned 1 ∧
        (main E argv).2.cerr = "runtime error: " ++ what ++ "\n") ∧
    ((tryBlock E argv (World.start S)).1 = Except.ok () ↔
        ∀ c ∈ (main E argv).2.calls, E.failure c = none) ∧
    ((tryBlock E argv (World.start S)).1 = Except.ok () → (main E argv).1 = .returned 0) := by
  refine ⟨?_, ?_, ⟨?_, ?_⟩, ?_⟩
  · intro c hc e he hhelp
    obtain ⟨w, hx, -, -⟩ := thrown_leaves E argv c e hc he
    rw [main_of_error E argv e w hx]
    cases e <;> simp_all [handler, Exn.isPrintHelp]
  · intro c hc what he
    obtain ⟨w, hx, hcerr, -⟩ := thrown_leaves E argv c _ hc he
    rw [main_of_error E argv _ w hx]
    simp [handler, cerrWrite, hcerr, String.append_assoc]
  · intro h
    rcases hx : tryBlock E argv (World.start S) with ⟨r, w⟩
    rw [hx] at h
    simp only at h
    subst h
    rw [main_calls, hx]
    exact (tryBlock_ok_tidy E argv w hx).1
  · intro h
    obtain ⟨w, hx, -⟩ := complete_of_tidy E argv h
    rw [hx]
  · intro h
    rcases hx : tryBlock E argv (World.start S) with ⟨r, w⟩
    rw [hx] at h
    simp only at h
    subst h
    rw [main_of_ok E argv w hx]

theorem main_signals_errors_witness :
    (main (demoEnvFailing (.runtimeError "no model")) []).1 = .returned 1 ∧
    (main (demoEnvFailing (.runtimeError "no model")) []).2.cerr =
      "runtime error: " ++ "no model" ++ "\n" :=
  (main_signals_errors (demoEnvFailing (.runtimeError "no model")) []).2.1
    (Call.loadModel 2) (List.Mem.tail _ (List.Mem.tail _ (List.Mem.head _))) "no model" rfl

/-- C8: the evaluator works with the configured loss.  Whenever `main` calls `Evaluate`,
the evaluator was built from `trainerArguments.lossArguments`, the very arguments the
sorting tree trainer under the bagging trainer was built from; the predictor evaluated
is the one `GetPredictor` returned for that bagging trainer after its `Update`, and the
iterator evaluated over comes from the row dataset whose iterator `Update` received.
What `Print` is called on is the evaluator after that `Evaluate`, and a verbose run that
completes ends its standard output with `Training error`, the text printed by the
evaluator, and a newline. -/
theorem evaluator_uses_training_loss (E : Env S) (argv : List String) :
    (∀ ev it p, Call.evaluate ev it p ∈ (main E argv).2.calls →
      ∃ args baseTrainer t it0 t1 mp d,
        E.parse argv = Except.ok args ∧
        E.makeSortingTreeTrainer args.trainerArguments.lossArguments
          args.sortingTreeTrainerArguments = Except.ok baseTrainer ∧
        E.makeBaggingIncrementalTrainer baseTrainer args.baggingIncrementalTrainerArguments =
          Except.ok t ∧
        E.makeBinaryClassificationEvaluator args.trainerArguments.lossArguments =
          Except.ok ev ∧
        Call.getRowDataset args.dataLoadArguments mp ∈ (main E argv).2.calls ∧
        E.getRowDataset args.dataLoadArguments mp = Except.ok d ∧
        E.getIterator d = Except.ok it0 ∧
        Call.update t it0 ∈ (main E argv).2.calls ∧
        E.update t it0 = Except.ok t1 ∧
        E.getPredictor t1 = Except.ok p ∧
        E.getIterator d = Except.ok it) ∧
    (∀ ev1, Call.print ev1 ∈ (main E argv).2.calls →
      ∃ ev it p, Call.evaluate ev it p ∈ (main E argv).2.calls ∧
        E.evaluate ev it p = Except.ok ev1) ∧
    (∀ (b : Bindings S) (v : EvalBindings S), b.Ok E argv → v.Ok E argv b →
      b.args.trainerArguments.verbose = true →
      (main E argv).2.cout =
        "Bagging Tree Trainer\n" ++ (v.currentValues ++ "\n") ++ "Loading data ...\n" ++
          "Training ...\n" ++ "Finished training.\n" ++ "Training error\n" ++ v.text ++ "\n") := by
  refine ⟨?_, ?_, ?_⟩
  · intro ev it p hmem
    rw [main_calls] at hmem ⊢
    obtain ⟨⟨args, mp, d, hparse, -, hev, hmp, hd, hit⟩, t1, ht1, hp⟩ :=
      (calls_of_evaluate E argv _ rfl).1 ev it p hmem
    obtain ⟨t, it0, hupd, ht⟩ := (calls_of_save E argv _ rfl).1 t1 ht1
    obtain ⟨args1, baseTrainer, mp1, d1, hparse1, hbase, htr, -, hd1, hit0, huniq⟩ :=
      calls_of_update E argv _ rfl t it0 hupd
    rw [hparse] at hparse1
    cases hparse1
    obtain ⟨-, rfl⟩ := huniq _ _ hmp
    rw [hd] at hd1
    cases hd1
    exact ⟨args, baseTrainer, t, it0, t1, mp, d, hparse, hbase, htr, hev, hmp, hd, hit0, hupd,
      ht, hp, hit⟩
  · intro ev1 hmem
    rw [main_calls] at hmem ⊢
    exact (calls_of_evaluate E argv _ rfl).2 ev1 hmem
  · intro b v hb hv hverbose
    rw [main_of_ok E argv _ (tryBlock_of_ok_verbose E argv b v hb hverbose hv)]
    rfl

theorem evaluator_uses_training_loss_witness :
    (main (demoEnv true) []).2.cout =
      "Bagging Tree Trainer\n" ++ ("v" ++ "\n") ++ "Loading data ...\n" ++
        "Training ...\n" ++ "Finished training.\n" ++ "Training error\n" ++ "loss" ++ "\n" :=
  (evaluator_uses_training_loss (demoEnv true) []).2.2
    ⟨demoArguments demoSig true 1 2 3 4 5, 7, 12, 15, 180, 183, 5, 10, 183, 193, 386, 398⟩
    ⟨"v", 1, 183, 570, "loss"⟩ (by constructor <;> rfl) (by constructor <;> rfl) rfl

/-- C9: when command-line parsing raises the print-help exception, `main` writes exactly
the help text followed by a newline to standard output, returns 0, and makes no call
after `Parse` (no output stream, model load, dataset load, trainer construction,
`Update`, `AddToModel` or `Save`). -/
theorem main_printHelp (E : Env S) (argv : List String) (helpText : String)
    (h : E.parse argv = Except.error (.printHelp helpText)) :
    main E argv = (.returned 0, ⟨helpText ++ "\n", "", [Call.parse argv]⟩) := by
  have hx : tryBlock E argv (World.start S) =
      (Except.error (.printHelp helpText), (World.start S).log (Call.parse argv)) := by
    simp only [tryBlock, bind_def]
    exact bind_call_error _ _ _ _ _ h
  rw [main_of_error E argv _ _ hx]
  simp [handler, coutWrite, World.log, World.start]

theorem main_printHelp_witness :
    main (demoEnvParse (.printHelp "usage")) ["--help"] =
      (.returned 0, ⟨"usage" ++ "\n", "", [Call.parse ["--help"]]⟩) :=
  main_printHelp (demoEnvParse (.printHelp "usage")) ["--help"] "usage" rfl

/-- C10: when command-line parsing raises the parse-error exception, `main` writes to
standard error the line `Command line parse error:` followed by the message of every
parse error, one per line in the order of the list (only the header for an empty list),
returns 1, and makes no call after `Parse` (no model load, training or `Save`). -/
theorem main_parseError (E : Env S) (argv : List String) (errors : List ParseError)
    (h : E.parse argv = Except.error (.parseError errors)) :
    main E argv =
      (.returned 1,
        ⟨"", "Command line parse error:\n" ++ linesOf (errors.map ParseError.getMessage),
          [Call.parse argv]⟩) := by
  have hx : tryBlock E argv (World.start S) =
      (Except.error (.parseError errors), (World.start S).log (Call.parse argv)) := by
    simp only [tryBlock, bind_def]
    exact bind_call_error _ _ _ _ _ h
  rw [main_of_error E argv _ _ hx]
  simp [handler, cerrWrite, Run.bind, writeParseErrors_eq, World.log, World.start]

theorem main_parseError_witness :
    main (demoEnvParse (.parseError [⟨"unknown option -x"⟩, ⟨"missing value"⟩])) ["-x"] =
      (.returned 1,
        ⟨"", "Command line parse error:\n" ++
            linesOf (List.map ParseError.getMessage [⟨"unknown option -x"⟩, ⟨"missing value"⟩]),
          [Call.parse ["-x"]]⟩) :=
  main_parseError (demoEnvParse (.parseError [⟨"unknown option -x"⟩, ⟨"missing value"⟩]))
    ["-x"] [⟨"unknown option -x"⟩, ⟨"missing value"⟩] rfl

end Driver

/-! ## The claims on the trainers, followed through the driver -/

section SpecDriver
variable {B : Sig}

/-- C3: an empty Example Store passed to `Update` is rejected.  In a run of `main` on
the trainers of the specification whose loaded dataset has no examples, every `Update`
call is on an empty iterator and throws a runtime error; `GetPredictor`, `AddToModel`
and `Save` are never called, so no model is written; `main` returns 1; and when both
trainers can be constructed `Update` is called. -/
theorem empty_store_rejected (L : Learner) (X : Env (specSig B)) (argv : List String)
    (a : (specSig B).DataLoadArguments) (mp : (specSig B).Map)
    (hload : Call.getRowDataset a mp ∈ (main (specEnv L X) argv).2.calls)
    (hempty : X.getRowDataset a mp = Except.ok []) :
    (main (specEnv L X) argv).1 = .returned 1 ∧
    (∀ c ∈ (main (specEnv L X) argv).2.calls,
      c.isGetPredictor = false ∧ c.isAddToModel = false ∧ c.isSave = false) ∧
    (∀ t it, Call.update t it ∈ (main (specEnv L X) argv).2.calls →
      it = [] ∧ ∃ what, update L t it = Except.error (.runtimeError what)) ∧
    (∀ args baseTrainer t, X.parse argv = Except.ok args →
      makeSortingTreeTrainer args.trainerArguments.lossArguments
        args.sortingTreeTrainerArguments = Except.ok baseTrainer →
      makeBaggingIncrementalTrainer baseTrainer args.baggingIncrementalTrainerArguments =
        Except.ok t →
      Call.update t [] ∈ (main (specEnv L X) argv).2.calls) := by
  have hload1 := hload
  rw [main_calls] at hload1
  obtain ⟨args, hparse, hstt, hnext⟩ :=
    calls_after_getRowDataset (specEnv L X) argv _ rfl a mp hload1 [] hempty
  have hupd : ∀ t it, Call.update t it ∈ (main (specEnv L X) argv).2.calls →
      it = [] ∧ ∃ what, update L t it = Except.error (.runtimeError what) := by
    intro t it hmem
    rw [main_calls] at hmem
    obtain ⟨args1, baseTrainer, mp1, d, -, -, -, -, hd, hit, huniq⟩ :=
      calls_of_update (specEnv L X) argv _ rfl t it hmem
    obtain ⟨rfl, rfl⟩ := huniq a mp hload1
    have hd1 : Except.ok d = (Except.ok [] : Except Exn (List Example)) := hd.symm.trans hempty
    cases hd1
    have : it = [] := (Except.ok.inj hit).symm
    subst this
    exact ⟨rfl, _, update_nil L t⟩
  have hget : ∀ t1, Call.getPredictor t1 ∉ (main (specEnv L X) argv).2.calls := by
    intro t1 hmem
    rw [main_calls] at hmem
    obtain ⟨t, it, hmem1, hok⟩ := (calls_of_save (specEnv L X) argv _ rfl).1 t1 hmem
    rw [← main_calls] at hmem1
    obtain ⟨rfl, what, herr⟩ := hupd t it hmem1
    have : update L t [] = Except.ok t1 := hok
    rw [herr] at this
    cases this
  have hadd : ∀ p m c, Call.addToModel p m c ∉ (main (specEnv L X) argv).2.calls := by
    intro p m c hmem
    rw [main_calls] at hmem
    obtain ⟨t1, hmem1, -⟩ := (calls_of_save (specEnv L X) argv _ rfl).2.1 p m c hmem
    rw [← main_calls] at hmem1
    exact hget t1 hmem1
  have hsave : ∀ m o, Call.save m o ∉ (main (specEnv L X) argv).2.calls := by
    intro m o hmem
    rw [main_calls] at hmem
    obtain ⟨p, m0, c, hmem1, -⟩ := (calls_of_save (specEnv L X) argv _ rfl).2.2 m o hmem
    rw [← main_calls] at hmem1
    exact hadd p m0 c hmem1
  have hreach : ∀ baseTrainer t,
      makeSortingTreeTrainer args.trainerArguments.lossArguments
        args.sortingTreeTrainerArguments = Except.ok baseTrainer →
      makeBaggingIncrementalTrainer baseTrainer args.baggingIncrementalTrainerArguments =
        Except.ok t →
      Call.update t [] ∈ (main (specEnv L X) argv).2.calls := by
    intro baseTrainer t hb ht
    rw [main_calls]
    exact ((hnext baseTrainer hb).2 t ht).2 [] rfl
  refine ⟨?_, ?_, hupd, ?_⟩
  · rcases makeSortingTreeTrainer_cases args.trainerArguments.lossArguments
      args.sortingTreeTrainerArguments with ⟨what, herr⟩ | ⟨-, hb⟩
    · exact (returns_one_of_runtime_error (specEnv L X) argv _ what
        (by rw [main_calls]; exact hstt) (by
          show failureOf (makeSortingTreeTrainer _ _) = _
          rw [herr]; rfl)).1
    · rcases makeBaggingIncrementalTrainer_cases ⟨args.trainerArguments.lossArguments,
        args.sortingTreeTrainerArguments⟩ args.baggingIncrementalTrainerArguments with
        ⟨what, herr⟩ | ⟨-, -, ht⟩
      · exact (returns_one_of_runtime_error (specEnv L X) argv _ what
          (by rw [main_calls]; exact (hnext _ hb).1) (by
            show failureOf (makeBaggingIncrementalTrainer _ _) = _
            rw [herr]; rfl)).1
      · exact (returns_one_of_runtime_error (specEnv L X) argv _ "empty example store"
          (hreach _ _ hb ht) rfl).1
  · intro c hc
    cases c <;> simp [Call.isGetPredictor, Call.isAddToModel, Call.isSave]
    · exact hget _ hc
    · exact hadd _ _ _ hc
    · exact hsave _ _ hc
  · intro args1 baseTrainer t hparse1 hb ht
    have hp : X.parse argv = Except.ok args := hparse
    rw [hp] at hparse1
    cases hparse1
    exact hreach baseTrainer t hb ht

theorem empty_store_rejected_witness :
    (main (specEnv demoLearner (demoSpecEnv [] ⟨3, 1, 0⟩ ⟨2, none, 1, 42⟩)) []).1 = .returned 1 ∧
    (∀ c ∈ (main (specEnv demoLearner (demoSpecEnv [] ⟨3, 1, 0⟩ ⟨2, none, 1, 42⟩)) []).2.calls,
      c.isGetPredictor = false ∧ c.isAddToModel = false ∧ c.isSave = false) ∧
    (∀ t it, Call.update t it ∈
        (main (specEnv demoLearner (demoSpecEnv [] ⟨3, 1, 0⟩ ⟨2, none, 1, 42⟩)) []).2.calls →
      it = [] ∧ ∃ what, update demoLearner t it = Except.error (.runtimeError what)) ∧
    (∀ args baseTrainer t,
      (demoSpecEnv [] ⟨3, 1, 0⟩ ⟨2, none, 1, 42⟩).parse [] = Except.ok args →
      makeSortingTreeTrainer args.trainerArguments.lossArguments
        args.sortingTreeTrainerArguments = Except.ok baseTrainer →
      makeBaggingIncrementalTrainer baseTrainer args.baggingIncrementalTrainerArguments =
        Except.ok t →
      Call.update t [] ∈
        (main (specEnv demoLearner (demoSpecEnv [] ⟨3, 1, 0⟩ ⟨2, none, 1, 42⟩)) []).2.calls) :=
  empty_store_rejected demoLearner (demoSpecEnv [] ⟨3, 1, 0⟩ ⟨2, none, 1, 42⟩) [] 3 180
    (List.Mem.tail _ (List.Mem.tail _ (List.Mem.tail _ (List.Mem.tail _ (List.Mem.tail _
      (List.Mem.head _)))))) rfl

/-- C4: malformed configuration is rejected at construction, before `Update`.  For parsed
options with zero trees per update, a zero sample size or a depth ≤ 0, one of the two
constructors of the specification throws; in the run of `main` on these trainers,
`Update`, `GetPredictor`, `AddToModel` and `Save` are never called; and when the run
gets as far as a loaded dataset, its last call is the constructor that throws and `main`
returns 1. -/
theorem malformed_configuration_rejected (L : Learner) (X : Env (specSig B))
    (argv : List String) (args : Arguments (specSig B))
    (hparse : X.parse argv = Except.ok args)
    (hbad : args.baggingIncrementalTrainerArguments.numTreesPerUpdate = 0 ∨
      args.baggingIncrementalTrainerArguments.sampleSize = some 0 ∨
      args.sortingTreeTrainerArguments.maxDepth ≤ 0) :
    ((∃ what, makeSortingTreeTrainer args.trainerArguments.lossArguments
        args.sortingTreeTrainerArguments = Except.error (.runtimeError what)) ∨
      ∀ baseTrainer, ∃ what,
        makeBaggingIncrementalTrainer baseTrainer args.baggingIncrementalTrainerArguments =
          Except.error (.runtimeError what)) ∧
    (∀ c ∈ (main (specEnv L X) argv).2.calls,
      c.isUpdate = false ∧ c.isGetPredictor = false ∧ c.isAddToModel = false ∧
        c.isSave = false) ∧
    (∀ a mp d, Call.getRowDataset a mp ∈ (main (specEnv L X) argv).2.calls →
      X.getRowDataset a mp = Except.ok d →
      (main (specEnv L X) argv).1 = .returned 1 ∧
      ∃ c what, (main (specEnv L X) argv).2.calls.getLast? = some c ∧ c.isConstruction = true ∧
        (specEnv L X).failure c = some (.runtimeError what)) := by
  have hcons : (∃ what, makeSortingTreeTrainer args.trainerArguments.lossArguments
        args.sortingTreeTrainerArguments = Except.error (.runtimeError what)) ∨
      ∀ baseTrainer, ∃ what,
        makeBaggingIncrementalTrainer baseTrainer args.baggingIncrementalTrainerArguments =
          Except.error (.runtimeError what) := by
    rcases hbad with h | h | h
    · exact Or.inr fun b => ⟨_, makeBaggingIncrementalTrainer_error b _ (Or.inl h)⟩
    · exact Or.inr fun b => ⟨_, makeBaggingIncrementalTrainer_error b _ (Or.inr h)⟩
    · exact Or.inl ⟨_, makeSortingTreeTrainer_error _ _ h⟩
  have hupd : ∀ t it, Call.update t it ∉ (main (specEnv L X) argv).2.calls := by
    intro t it hmem
    rw [main_calls] at hmem
    obtain ⟨args1, baseTrainer, mp1, d, hparse1, hb, ht, -⟩ :=
      calls_of_update (specEnv L X) argv _ rfl t it hmem
    have hp : X.parse argv = Except.ok args1 := hparse1
    rw [hparse] at hp
    cases hp
    rcases hcons with ⟨what, herr⟩ | herr
    · have : makeSortingTreeTrainer args.trainerArguments.lossArguments
          args.sortingTreeTrainerArguments = Except.ok baseTrainer := hb
      rw [herr] at this
      cases this
    · obtain ⟨what, herr⟩ := herr baseTrainer
      have : makeBaggingIncrementalTrainer baseTrainer
          args.baggingIncrementalTrainerArguments = Except.ok t := ht
      rw [herr] at this
      cases this
  have hget : ∀ t1, Call.getPredictor t1 ∉ (main (specEnv L X) argv).2.calls := by
    intro t1 hmem
    rw [main_calls] at hmem
    obtain ⟨t, it, hmem1, -⟩ := (calls_of_save (specEnv L X) argv _ rfl).1 t1 hmem
    rw [← main_calls] at hmem1
    exact hupd t it hmem1
  have hadd : ∀ p m c, Call.addToModel p m c ∉ (main (specEnv L X) argv).2.calls := by
    intro p m c hmem
    rw [main_calls] at hmem
    obtain ⟨t1, hmem1, -⟩ := (calls_of_save (specEnv L X) argv _ rfl).2.1 p m c hmem
    rw [← main_calls] at hmem1
    exact hget t1 hmem1
  have hsave : ∀ m o, Call.save m o ∉ (main (specEnv L X) argv).2.calls := by
    intro m o hmem
    rw [main_calls] at hmem
    obtain ⟨p, m0, c, hmem1, -⟩ := (calls_of_save (specEnv L X) argv _ rfl).2.2 m o hmem
    rw [← main_calls] at hmem1
    exact hadd p m0 c hmem1
  refine ⟨hcons, ?_, ?_⟩
  · intro c hc
    cases c <;> simp [Call.isUpdate, Call.isGetPredictor, Call.isAddToModel, Call.isSave]
    · exact hupd _ _ hc
    · exact hget _ hc
    · exact hadd _ _ _ hc
    · exact hsave _ _ hc
  · intro a mp d hload hd
    have hload1 := hload
    rw [main_calls] at hload1
    obtain ⟨args1, hparse1, hstt, hnext⟩ :=
      calls_after_getRowDataset (specEnv L X) argv _ rfl a mp hload1 d hd
    have hp : X.parse argv = Except.ok args1 := hparse1
    rw [hparse] at hp
    cases hp
    rw [← main_calls] at hstt
    rcases makeSortingTreeTrainer_cases args.trainerArguments.lossArguments
      args.sortingTreeTrainerArguments with ⟨what, herr⟩ | ⟨hdepth, hb⟩
    · have hfail : (specEnv L X).failure (Call.makeSortingTreeTrainer
          args.trainerArguments.lossArguments args.sortingTreeTrainerArguments) =
          some (.runtimeError what) := by
        show failureOf (makeSortingTreeTrainer _ _) = _
        rw [herr]; rfl
      obtain ⟨h1, hlast⟩ := returns_one_of_runtime_error (specEnv L X) argv _ what hstt hfail
      exact ⟨h1, _, what, hlast, rfl, hfail⟩
    · have hmem := (hnext _ hb).1
      rw [← main_calls] at hmem
      have hbad1 : args.baggingIncrementalTrainerArguments.numTreesPerUpdate = 0 ∨
          args.baggingIncrementalTrainerArguments.sampleSize = some 0 := by
        rcases hbad with h | h | h
        · exact Or.inl h
        · exact Or.inr h
        · omega
      have hfail : (specEnv L X).failure (Call.makeBaggingIncrementalTrainer
          ⟨args.trainerArguments.lossArguments, args.sortingTreeTrainerArguments⟩
          args.baggingIncrementalTrainerArguments) =
          some (.runtimeError "invalid configuration: trees or sample size") := by
        show failureOf (makeBaggingIncrementalTrainer _ _) = _
        rw [makeBaggingIncrementalTrainer_error _ _ hbad1]; rfl
      obtain ⟨h1, hlast⟩ := returns_one_of_runtime_error (specEnv L X) argv _ _ hmem hfail
      exact ⟨h1, _, _, hlast, rfl, hfail⟩

theorem malformed_configuration_rejected_witness :
    (main (specEnv demoLearner (demoSpecEnv [⟨[], 1, 1⟩] ⟨3, 1, 0⟩ ⟨0, none, 1, 42⟩)) []).1 =
      .returned 1 :=
  ((malformed_configuration_rejected demoLearner
    (demoSpecEnv [⟨[], 1, 1⟩] ⟨3, 1, 0⟩ ⟨0, none, 1, 42⟩) []
    (demoArguments (specSig demoSig) false LossFunction.squared 2 3 ⟨3, 1, 0⟩ ⟨0, none, 1, 42⟩)
    rfl (Or.inl rfl)).2.2 3 180 [⟨[], 1, 1⟩]
    (List.Mem.tail _ (List.Mem.tail _ (List.Mem.tail _ (List.Mem.tail _ (List.Mem.tail _
      (List.Mem.head _)))))) rfl).1

/-- C6: monotonic growth.  A trainer of the specification that was constructed with
`numTreesPerUpdate = t` and has completed `k` calls of `Update` holds exactly `k * t`
trees, and a further `Update` only appends `t` trees to them; `Update` completes on every
non-empty store.  In a run of `main` on these trainers in which no call throws, `Update`
is called once and the predictor merged into the saved model holds exactly `t` trees. -/
theorem ensemble_grows_monotonically (B : Sig) (L : Learner) :
    (∀ (baseTrainer : SortingTreeTrainer) (config : BaggingConfig)
        (t0 tk : BaggingIncrementalTrainer) (stores : List (List Example)),
      makeBaggingIncrementalTrainer baseTrainer config = Except.ok t0 →
      updates L t0 stores = Except.ok tk →
      (∀ p, getPredictor tk = Except.ok p →
        p.length = stores.length * config.numTreesPerUpdate) ∧
      ∀ store tk1, update L tk store = Except.ok tk1 →
        ∃ added, tk1.ensemble = tk.ensemble ++ added ∧
          added.length = config.numTreesPerUpdate) ∧
    (∀ (t : BaggingIncrementalTrainer) (stores : List (List Example)),
      (∀ s ∈ stores, s ≠ []) → ∃ tk, updates L t stores = Except.ok tk) ∧
    (∀ (X : Env (specSig B)) (argv : List String),
      (∀ c ∈ (main (specEnv L X) argv).2.calls, (specEnv L X).failure c = none) →
      ∃ b : Bindings (specSig B), b.Ok (specEnv L X) argv ∧
        (main (specEnv L X) argv).2.calls.filter Call.isUpdate =
          [Call.update b.trainer b.trainSetIterator] ∧
        (main (specEnv L X) argv).2.calls.filter Call.isAddToModel =
          [Call.addToModel b.predictor b.model b.outputCoordinateList] ∧
        (main (specEnv L X) argv).2.calls.filter Call.isSave =
          [Call.save b.merged b.outStream] ∧
        List.length b.predictor =
          b.args.baggingIncrementalTrainerArguments.numTreesPerUpdate) := by
  refine ⟨?_, ?_, ?_⟩
  · intro baseTrainer config t0 tk stores h0 hk
    have ht0 := makeBaggingIncrementalTrainer_ok baseTrainer config t0 h0
    obtain ⟨hc, added, he, hl⟩ := updates_spec L stores t0 tk hk
    subst ht0
    refine ⟨?_, ?_⟩
    · intro p hp
      cases hp
      rw [he]
      simpa using hl
    · intro store tk1 h1
      obtain ⟨-, -, -, added1, he1, hl1⟩ := update_spec L tk tk1 store h1
      exact ⟨added1, he1, by rw [hl1, hc]⟩
  · intro t stores h
    exact updates_ok_of_ne_nil L stores t h
  · intro X argv h
    obtain ⟨w, hx, hmain⟩ := complete_of_tidy (specEnv L X) argv h
    obtain ⟨b, hb, hw⟩ := tryBlock_complete (specEnv L X) argv w hx
    have hlen : List.length b.predictor =
        b.args.baggingIncrementalTrainerArguments.numTreesPerUpdate := by
      have h1 : makeBaggingIncrementalTrainer b.baseTrainer
          b.args.baggingIncrementalTrainerArguments = Except.ok b.trainer := hb.trainer
      have h2 : update L b.trainer b.trainSetIterator = Except.ok b.trained := hb.trained
      have h3 : getPredictor b.trained = Except.ok b.predictor := hb.predictor
      have ht0 := makeBaggingIncrementalTrainer_ok _ _ _ h1
      obtain ⟨-, -, -, added, he, hl⟩ := update_spec L _ _ _ h2
      have h4 : b.trained.ensemble = b.predictor := Except.ok.inj h3
      rw [← h4, he, ht0]
      simpa [ht0] using hl
    refine ⟨b, hb, ?_, ?_, ?_, hlen⟩ <;> rw [hmain] <;>
      rcases hw with ⟨-, rfl⟩ | ⟨-, v, -, rfl⟩ <;>
      simp [Bindings.quietWorld, Bindings.verboseWorld, Bindings.trainingCalls,
        Bindings.finalCalls, EvalBindings.calls, Call.isUpdate, Call.isAddToModel, Call.isSave]

theorem ensemble_grows_monotonically_witness :
    ∃ b : Bindings (specSig demoSig),
      b.Ok (specEnv demoLearner (demoSpecEnv [⟨[], 1, 1⟩] ⟨3, 1, 0⟩ ⟨2, none, 1, 42⟩)) [] ∧
      (main (specEnv demoLearner (demoSpecEnv [⟨[], 1, 1⟩] ⟨3, 1, 0⟩ ⟨2, none, 1, 42⟩))
        []).2.calls.filter Call.isUpdate = [Call.update b.trainer b.trainSetIterator] ∧
      (main (specEnv demoLearner (demoSpecEnv [⟨[], 1, 1⟩] ⟨3, 1, 0⟩ ⟨2, none, 1, 42⟩))
        []).2.calls.filter Call.isAddToModel =
          [Call.addToModel b.predictor b.model b.outputCoordinateList] ∧
      (main (specEnv demoLearner (demoSpecEnv [⟨[], 1, 1⟩] ⟨3, 1, 0⟩ ⟨2, none, 1, 42⟩))
        []).2.calls.filter Call.isSave = [Call.save b.merged b.outStream] ∧
      List.length b.predictor = b.args.baggingIncrementalTrainerArguments.numTreesPerUpdate :=
  (ensemble_grows_monotonically demoSig demoLearner).2.2
    (demoSpecEnv [⟨[], 1, 1⟩] ⟨3, 1, 0⟩ ⟨2, none, 1, 42⟩) [] (by decide)

/-- C7: reproducibility.  The ensemble of a trainer of the specification constructed from
a configuration and driven through a sequence of `Update` calls is the one computed from
the seed, the configuration and the call sequence alone: tree after tree, each trained
on the sample made of the next draws of the generator started from the seed; the
generator ends in the state reached from the seed by the number of draws made.  The
trees a sequence of `Update` calls adds do not depend on the trees held before.  So two
trainers constructed from the same base trainer and the same configuration, seed
included, and driven by the same sequence of `Update` calls end in the same state and
return the same ensemble.  Two runs of `main` on these trainers in which no call throws,
whatever their command lines, output streams, loaders and evaluators, each pass one
model to `Save`: the loaded model after `AddToModel` of the ensemble that the parsed
options, seed included, and the loaded dataset determine; with the same parsed
arguments, the same loaded model and the same loaded dataset, and the same code for the
coordinate list and `AddToModel`, it is the same model. -/
theorem reproducible (B : Sig) (L : Learner) :
    (∀ (baseTrainer : SortingTreeTrainer) (config : BaggingConfig)
        (stores : List (List Example)) (t0 r : BaggingIncrementalTrainer),
      makeBaggingIncrementalTrainer baseTrainer config = Except.ok t0 →
      updates L t0 stores = Except.ok r →
      getPredictor r = Except.ok (ensembleAt L baseTrainer config 0 stores) ∧
      r.generator = L.stateAfter config.seed (drawsOf config stores)) ∧
    (∀ (stores : List (List Example)) (t1 t2 r1 r2 : BaggingIncrementalTrainer),
      t1.config = t2.config → t1.baseTrainer = t2.baseTrainer →
      t1.generator = t2.generator →
      updates L t1 stores = Except.ok r1 → updates L t2 stores = Except.ok r2 →
      ∃ added, r1.ensemble = t1.ensemble ++ added ∧ r2.ensemble = t2.ensemble ++ added ∧
        r1.generator = r2.generator) ∧
    (∀ (baseTrainer : SortingTreeTrainer) (config : BaggingConfig)
        (stores : List (List Example)) (t1 t2 r1 r2 : BaggingIncrementalTrainer),
      makeBaggingIncrementalTrainer baseTrainer config = Except.ok t1 →
      makeBaggingIncrementalTrainer baseTrainer config = Except.ok t2 →
      updates L t1 stores = Except.ok r1 → updates L t2 stores = Except.ok r2 →
      r1 = r2 ∧ getPredictor r1 = getPredictor r2) ∧
    (∀ (X1 X2 : Env (specSig B)) (argv1 argv2 : List String),
      X1.parsedDataDimension = X2.parsedDataDimension →
      X1.buildCoordinateList = X2.buildCoordinateList →
      X1.addToModel = X2.addToModel →
      (∀ c ∈ (main (specEnv L X1) argv1).2.calls, (specEnv L X1).failure c = none) →
      (∀ c ∈ (main (specEnv L X2) argv2).2.calls, (specEnv L X2).failure c = none) →
      ∃ b1 b2 : Bindings (specSig B),
        b1.Ok (specEnv L X1) argv1 ∧ b2.Ok (specEnv L X2) argv2 ∧
        (main (specEnv L X1) argv1).2.calls.filter Call.isSave =
          [Call.save b1.merged b1.outStream] ∧
        (main (specEnv L X2) argv2).2.calls.filter Call.isSave =
          [Call.save b2.merged b2.outStream] ∧
        X1.addToModel
          (ensembleAt L
            ⟨b1.args.trainerArguments.lossArguments, b1.args.sortingTreeTrainerArguments⟩
            b1.args.baggingIncrementalTrainerArguments 0 [b1.rowDataset])
          b1.model b1.outputCoordinateList = Except.ok b1.merged ∧
        X2.addToModel
          (ensembleAt L
            ⟨b2.args.trainerArguments.lossArguments, b2.args.sortingTreeTrainerArguments⟩
            b2.args.baggingIncrementalTrainerArguments 0 [b2.rowDataset])
          b2.model b2.outputCoordinateList = Except.ok b2.merged ∧
        (b1.args = b2.args → b1.model = b2.model → b1.rowDataset = b2.rowDataset →
          b1.predictor = b2.predictor ∧ b1.merged = b2.merged)) := by
  refine ⟨?_, ?_, ?_, ?_⟩
  · intro baseTrainer config stores t0 r h0 h
    obtain ⟨h1, h2⟩ := updates_closed L baseTrainer config stores t0 r h0 h
    exact ⟨by rw [← h1]; rfl, h2⟩
  · intro stores t1 t2 r1 r2 hc hb hg h1 h2
    exact updates_frame L stores t1 t2 r1 r2 hc hb hg h1 h2
  · intro baseTrainer config stores t1 t2 r1 r2 h1 h2 hr1 hr2
    rw [h1] at h2
    cases h2
    rw [hr1] at hr2
    cases hr2
    exact ⟨rfl, rfl⟩
  · intro X1 X2 argv1 argv2 hdim hbuild hadd hq1 hq2
    obtain ⟨w1, hx1, hmain1⟩ := complete_of_tidy (specEnv L X1) argv1 hq1
    obtain ⟨w2, hx2, hmain2⟩ := complete_of_tidy (specEnv L X2) argv2 hq2
    obtain ⟨b1, hb1, hw1⟩ := tryBlock_complete (specEnv L X1) argv1 w1 hx1
    obtain ⟨b2, hb2, hw2⟩ := tryBlock_complete (specEnv L X2) argv2 w2 hx2
    refine ⟨b1, b2, hb1, hb2, ?_, ?_, ?_, ?_, ?_⟩
    · rw [hmain1]
      rcases hw1 with ⟨-, rfl⟩ | ⟨-, v, -, rfl⟩ <;>
        simp [Bindings.quietWorld, Bindings.verboseWorld, Bindings.trainingCalls,
          Bindings.finalCalls, EvalBindings.calls, Call.isSave]
    · rw [hmain2]
      rcases hw2 with ⟨-, rfl⟩ | ⟨-, v, -, rfl⟩ <;>
        simp [Bindings.quietWorld, Bindings.verboseWorld, Bindings.trainingCalls,
          Bindings.finalCalls, EvalBindings.calls, Call.isSave]
    · rw [← hb1.predictor_closed]
      exact hb1.merged
    · rw [← hb2.predictor_closed]
      exact hb2.merged
    · intro hargs hmodel hdata
      have hc : b1.outputCoordinateList = b2.outputCoordinateList :=
        hb1.coordinates_eq hb2 hdim hbuild (by rw [hargs]) (by rw [hargs]) hmodel
      obtain ⟨-, -, -, hp, hm⟩ := hb1.merged_eq hb2 rfl rfl rfl rfl rfl hadd (by rw [hargs])
        (by rw [hargs]) (by rw [hargs]) hmodel hc hdata
      exact ⟨hp, hm⟩

theorem reproducible_witness :
    (∃ b1 b2 : Bindings (specSig demoSig),
      b1.Ok (specEnv sumLearner (demoSpecEnv [⟨[], 1, 1⟩] ⟨3, 1, 0⟩ ⟨2, none, 1, 42⟩)) [] ∧
      b2.Ok (specEnv sumLearner
        { demoSpecEnv [⟨[], 1, 1⟩] ⟨3, 1, 0⟩ ⟨2, none, 1, 42⟩ with
          getOutputStreamImpostor := fun _ => Except.ok 9 }) ["-o", "f"] ∧
      (b1.args = b2.args → b1.model = b2.model → b1.rowDataset = b2.rowDataset →
        b1.predictor = b2.predictor ∧ b1.merged = b2.merged)) ∧
    ensembleAt sumLearner ⟨.squared, ⟨3, 1, 0⟩⟩ ⟨2, some 2, 1, 42⟩ 0
        [[⟨[], 1, 1⟩, ⟨[], 0, 1⟩, ⟨[], 0, 1⟩, ⟨[], 0, 1⟩, ⟨[], 0, 1⟩]] ≠
      ensembleAt sumLearner ⟨.squared, ⟨3, 1, 0⟩⟩ ⟨2, some 2, 1, 43⟩ 0
        [[⟨[], 1, 1⟩, ⟨[], 0, 1⟩, ⟨[], 0, 1⟩, ⟨[], 0, 1⟩, ⟨[], 0, 1⟩]] := by
  refine ⟨?_, by decide⟩
  obtain ⟨b1, b2, h1, h2, -, -, -, -, h⟩ := (reproducible demoSig sumLearner).2.2.2
    (demoSpecEnv [⟨[], 1, 1⟩] ⟨3, 1, 0⟩ ⟨2, none, 1, 42⟩)
    { demoSpecEnv [⟨[], 1, 1⟩] ⟨3, 1, 0⟩ ⟨2, none, 1, 42⟩ with
      getOutputStreamImpostor := fun _ => Except.ok 9 } [] ["-o", "f"] rfl rfl rfl
    (by decide) (by decide)
  exact ⟨b1, b2, h1, h2, h⟩

/-- C5: evaluation is read-only with respect to the dataset and the predictor.  The
`Evaluate` of the specification leaves the predictor as it was and its iterator at the
end, and the dataset as it was.  In a run of `main`, read by reference, on the trainers
and the evaluator of the specification, `Evaluate` is called only when the verbose flag
is set, on the predictor `GetPredictor` returned after `Update`, and on an iterator that
yields all the examples of the loaded dataset, which is not the iterator `Update`
consumed: that one is at its end.  When the quiet and the verbose run of one command
line both complete, the predictor they merge into the model and the model they pass to
`Save` are the same, the quiet run never calls `Evaluate`, and the verbose run calls it
once, after `GetPredictor`, on the iterator of a `GetIterator` call of its own. -/
theorem evaluation_is_read_only (L : Learner) (N : LossNumerics) (X : Env (evalSig B))
    (argv : List String) :
    (∀ ev it p, (evaluate N ev it p).predictor = p ∧ (evaluate N ev it p).iterator = []) ∧
    (∀ ev it p d, (specRefEnv L N X).datasetAfterEvaluate ev it p d = d) ∧
    (∀ ev it p, Call.evaluate ev it p ∈ (mainRef (specRefEnv L N X) argv).2.calls →
      ∃ args mp d t it0 t1,
        X.parse argv = Except.ok args ∧ args.trainerArguments.verbose = true ∧
        Call.getRowDataset args.dataLoadArguments mp ∈
          (mainRef (specRefEnv L N X) argv).2.calls ∧
        X.getRowDataset args.dataLoadArguments mp = Except.ok d ∧
        Call.update t it0 ∈ (mainRef (specRefEnv L N X) argv).2.calls ∧
        update L t it0 = Except.ok t1 ∧
        Call.getPredictor t1 ∈ (mainRef (specRefEnv L N X) argv).2.calls ∧
        getPredictor t1 = Except.ok p ∧
        it = d ∧
        (specRefEnv L N X).iteratorAfterUpdate t it0 = [] ∧
        it ≠ (specRefEnv L N X).iteratorAfterUpdate t it0) ∧
    ((∀ c ∈ (mainRef ((specRefEnv L N X).withVerbose false) argv).2.calls,
        ((specRefEnv L N X).withVerbose false).failure c = none) →
     (∀ c ∈ (mainRef ((specRefEnv L N X).withVerbose true) argv).2.calls,
        ((specRefEnv L N X).withVerbose true).failure c = none) →
      ∃ (b : Bindings (evalSig B)) (v : EvalBindings (evalSig B)),
        b.Ok ((specRefEnv L N X).withVerbose true).toEnv argv ∧
        v.Ok ((specRefEnv L N X).withVerbose true).toEnv argv b ∧
        (specRefEnv L N X).predictorAfterEvaluate v.evaluator v.evaluationIterator
          b.predictor = b.predictor ∧
        (mainRef ((specRefEnv L N X).withVerbose false) argv).2.calls.filter
          Call.isAddToModel = [Call.addToModel b.predictor b.model b.outputCoordinateList] ∧
        (mainRef ((specRefEnv L N X).withVerbose true) argv).2.calls.filter
          Call.isAddToModel = [Call.addToModel b.predictor b.model b.outputCoordinateList] ∧
        (mainRef ((specRefEnv L N X).withVerbose false) argv).2.calls.filter Call.isSave =
          [Call.save b.merged b.outStream] ∧
        (mainRef ((specRefEnv L N X).withVerbose true) argv).2.calls.filter Call.isSave =
          [Call.save b.merged b.outStream] ∧
        (mainRef ((specRefEnv L N X).withVerbose false) argv).2.calls.filter
          Call.isEvaluate = [] ∧
        (mainRef ((specRefEnv L N X).withVerbose true) argv).2.calls.filter
          Call.isEvaluate = [Call.evaluate v.evaluator v.evaluationIterator b.predictor] ∧
        ∃ pre post, (mainRef ((specRefEnv L N X).withVerbose true) argv).2.calls =
          pre ++ [Call.getIterator b.rowDataset, Call.update b.trainer b.trainSetIterator,
            Call.getPredictor b.trained,
            Call.makeBinaryClassificationEvaluator b.args.trainerArguments.lossArguments,
            Call.getIterator b.rowDataset,
            Call.evaluate v.evaluator v.evaluationIterator b.predictor] ++ post) := by
  have hpass : ∀ ev it p,
      (evaluate N ev it p).predictor = p ∧ (evaluate N ev it p).iterator = [] :=
    fun ev it p => evaluatePass_spec N it ⟨ev, it, p⟩
  have hp : ∀ ev it p, (specRefEnv L N X).predictorAfterEvaluate ev it p = p :=
    fun ev it p => (hpass ev it p).1
  refine ⟨hpass, fun _ _ _ _ => rfl, ?_, ?_⟩
  · intro ev it p hmem
    rw [mainRef_eq _ argv hp] at hmem ⊢
    rw [main_calls] at hmem ⊢
    obtain ⟨⟨args, mp, d, hparse, hverbose, -, hmp, hd, hit⟩, t1, ht1, hpred⟩ :=
      (calls_of_evaluate (specRefEnv L N X).toEnv argv _ rfl).1 ev it p hmem
    obtain ⟨t, it0, hupd, ht⟩ := (calls_of_save (specRefEnv L N X).toEnv argv _ rfl).1 t1 ht1
    obtain ⟨args1, baseTrainer, mp1, d1, hparse1, -, -, -, hd1, hit0, huniq⟩ :=
      calls_of_update (specRefEnv L N X).toEnv argv _ rfl t it0 hupd
    rw [hparse] at hparse1
    cases hparse1
    obtain ⟨-, rfl⟩ := huniq _ _ hmp
    rw [hd] at hd1
    cases hd1
    have hit1 : d = it := Except.ok.inj hit
    have hit2 : d = it0 := Except.ok.inj hit0
    have hup : update L t it0 = Except.ok t1 := ht
    have hne : it0 ≠ [] := (update_spec L t t1 it0 hup).1
    have hafter : (specRefEnv L N X).iteratorAfterUpdate t it0 = [] := by
      show (readAll it0).2 = []
      rw [readAll_eq]
    refine ⟨args, mp, d, t, it0, t1, hparse, hverbose, hmp, hd, hupd, hup, ht1, hpred,
      hit1.symm, hafter, ?_⟩
    rw [hafter, ← hit1, hit2]
    exact hne
  · intro hq hv
    have e1 : mainRef ((specRefEnv L N X).withVerbose false) argv =
        main ((specRefEnv L N X).toEnv.withVerbose false) argv :=
      mainRef_eq ((specRefEnv L N X).withVerbose false) argv hp
    have e2 : mainRef ((specRefEnv L N X).withVerbose true) argv =
        main ((specRefEnv L N X).toEnv.withVerbose true) argv :=
      mainRef_eq ((specRefEnv L N X).withVerbose true) argv hp
    rw [e1] at hq
    rw [e2] at hv
    obtain ⟨b, v, hb, hvok, h1, h2, h3, h4, h5, h6, h7⟩ :=
      quiet_verbose_calls (specRefEnv L N X).toEnv argv hq hv
    rw [e1, e2]
    exact ⟨b, v, hb, hvok, hp _ _ _, h1, h2, h3, h4, h5, h6, h7⟩

theorem evaluation_is_read_only_witness :
    ∃ (b : Bindings (evalSig demoSig)) (v : EvalBindings (evalSig demoSig)),
      b.Ok ((specRefEnv demoLearner demoNumerics
        (demoEvalEnv [⟨[], 1, 1⟩, ⟨[], -1, 1⟩] ⟨3, 1, 0⟩ ⟨2, none, 1, 42⟩)).withVerbose
          true).toEnv [] ∧
      v.Ok ((specRefEnv demoLearner demoNumerics
        (demoEvalEnv [⟨[], 1, 1⟩, ⟨[], -1, 1⟩] ⟨3, 1, 0⟩ ⟨2, none, 1, 42⟩)).withVerbose
          true).toEnv [] b ∧
      (mainRef ((specRefEnv demoLearner demoNumerics
        (demoEvalEnv [⟨[], 1, 1⟩, ⟨[], -1, 1⟩] ⟨3, 1, 0⟩ ⟨2, none, 1, 42⟩)).withVerbose
          false) []).2.calls.filter Call.isSave = [Call.save b.merged b.outStream] ∧
      (mainRef ((specRefEnv demoLearner demoNumerics
        (demoEvalEnv [⟨[], 1, 1⟩, ⟨[], -1, 1⟩] ⟨3, 1, 0⟩ ⟨2, none, 1, 42⟩)).withVerbose
          true) []).2.calls.filter Call.isSave = [Call.save b.merged b.outStream] ∧
      (mainRef ((specRefEnv demoLearner demoNumerics
        (demoEvalEnv [⟨[], 1, 1⟩, ⟨[], -1, 1⟩] ⟨3, 1, 0⟩ ⟨2, none, 1, 42⟩)).withVerbose
          true) []).2.calls.filter Call.isEvaluate =
        [Call.evaluate v.evaluator v.evaluationIterator b.predictor] := by
  obtain ⟨b, v, hb, hv, -, -, -, h3, h4, -, h6, -⟩ :=
    (evaluation_is_read_only demoLearner demoNumerics
      (demoEvalEnv [⟨[], 1, 1⟩, ⟨[], -1, 1⟩] ⟨3, 1, 0⟩ ⟨2, none, 1, 42⟩) []).2.2.2
      (by decide) (by decide)
  exact ⟨b, v, hb, hv, h3, h4, h6⟩

end SpecDriver

end BaggedTreeTrainer
